import Mathlib

/-!
Verification development for the claude-code-acp-py repository.

The Lean definitions below are a shallow embedding of the Python source:

* `AcpClient` models src/claude_code_acp/acp_client.py (the ACP client stub:
  streaming text deduplication, pending-model slot, session and prompt flow,
  and the file read handler).
* `Agent` models src/claude_code_acp/agent.py (the ACP agent adapter:
  tool titles, the tool permission handler, and the per-session operations).
* `Proxy` models src/claude_code_acp/proxy/session_manager.py and
  src/claude_code_acp/proxy/server.py (proxy sessions, event envelopes,
  the session.send / destroy / abort handlers, and the wire framing).
* `PyJson` models the compact JSON serialization used on the wire,
  mirroring the Python standard library calls
  json.dumps(message, separators set to comma and colon, ensure_ascii)
  and json.loads, which the server invokes but which live outside the
  repository. JSON numbers are modelled as integers; the float forms are
  never produced by the proxy server envelopes.

Python mutable state is passed explicitly; methods that may raise return
`Except String`, where `.error msg` models a raised exception carrying
`str(e) = msg`; methods that cannot raise either return plain values or
always return `.ok`.
-/

namespace AcpClient

/-- Python substring containment test `needle in haystack`, as used by the
expression `text not in client._text_buffer` in `ClientHandler.session_update`
(acp_client.py). -/
def strIn (needle haystack : String) : Bool :=
  decide (needle.data <:+: haystack.data)

/-- Handling of one inbound `AgentMessageChunk` text in
`ClientHandler.session_update` (acp_client.py lines 431-438): when the text is
non-empty and does not already occur inside the accumulated `_text_buffer`,
it is appended to the buffer and emitted through the `on_text` handler;
otherwise it is dropped. Returns the new buffer and the emitted delta, if
any. -/
def session_update_text (buf t : String) : String × Option String :=
  if t != "" && !(strIn t buf) then (buf ++ t, some t) else (buf, none)

/-- Process a sequence of inbound `AgentMessageChunk` texts starting from the
given `_text_buffer` value, returning the final buffer and the list of deltas
emitted to `on_text`, in order. -/
def runChunksFrom (buf : String) : List String → String × List String
  | [] => (buf, [])
  | t :: ts =>
    let step := session_update_text buf t
    let rec_ := runChunksFrom step.1 ts
    (rec_.1, step.2.toList ++ rec_.2)

/-- Modelled from the spec: the streaming deduplication rule exactly as the
specification words it (spec section 4.D), for comparison against the code
model `session_update_text`. If the buffer is empty, emit the chunk and set
the buffer to it; if the chunk equals the buffer, drop it; if the chunk
starts with the buffer, emit only the suffix and replace the buffer;
otherwise append the chunk to the buffer and emit it. -/
def spec_dedup_step (buf t : String) : String × Option String :=
  if buf = "" then (t, some t)
  else if t = buf then (buf, none)
  else if t.take buf.length = buf then (t, some (t.drop buf.length))
  else (buf ++ t, some t)

/-- Concatenation of a list of strings, in order. -/
def concatList : List String → String
  | [] => ""
  | s :: ss => s ++ concatList ss

end AcpClient

namespace Agent

/-- Projection of the `tool_input` dictionary restricted to the keys that
`ClaudeAcpAgent._get_tool_title` (agent.py) reads; an absent key is `none`. -/
structure ToolInput where
  file_path : Option String := none
  path : Option String := none
  command : Option String := none
  pattern : Option String := none
deriving DecidableEq

/-- Python `tool_input.get("file_path", tool_input.get("path", ""))`. -/
def ToolInput.pathField (inp : ToolInput) : String :=
  inp.file_path.getD (inp.path.getD "")

/-- Embedding of `ClaudeAcpAgent._get_tool_title` (agent.py lines 407-425):
derive the human readable title of a tool call from the tool name and its
input. -/
def get_tool_title (tool_name : String) (tool_input : ToolInput) : String :=
  if tool_name = "Read" then
    "Read " ++ tool_input.pathField
  else if tool_name = "Write" ∨ tool_name = "Edit" then
    tool_name ++ " " ++ tool_input.pathField
  else if tool_name = "Bash" then
    let cmd := tool_input.command.getD ""
    if cmd.length > 50 then "Run: " ++ cmd.take 50 ++ "..." else "Run: " ++ cmd
  else if tool_name = "Glob" then
    "Find files: " ++ tool_input.pattern.getD ""
  else if tool_name = "Grep" then
    "Search: " ++ tool_input.pattern.getD ""
  else
    tool_name

/-- One entry of the options list that `can_use_tool` passes to
`session/request_permission` (agent.py lines 460-476). -/
structure PermissionOptionSpec where
  kind : String
  name : String
  option_id : String
deriving DecidableEq

/-- The fixed options list built in `_create_permission_handler`. -/
def permission_options : List PermissionOptionSpec :=
  [ { kind := "allow_always", name := "Always Allow", option_id := "allow_always" },
    { kind := "allow_once", name := "Allow", option_id := "allow" },
    { kind := "reject_once", name := "Reject", option_id := "reject" } ]

/-- The `session/request_permission` reverse call payload: the options list,
the tool title and the raw tool input (the generated `tool_call_id` uuid is
omitted from the model). -/
structure PermissionRequestSent where
  options : List PermissionOptionSpec
  title : String
  raw_input : ToolInput
deriving DecidableEq

/-- The `outcome` object of the client response to
`session/request_permission`. -/
structure PermissionOutcome where
  outcome : String
  option_id : String
deriving DecidableEq

/-- Result type mirroring PermissionResultAllow / PermissionResultDeny of the
assistant SDK boundary. -/
inductive PermissionResult
  | allow
  | deny (message : String)
deriving DecidableEq

/-- Embedding of the `can_use_tool` closure built by
`ClaudeAcpAgent._create_permission_handler` (agent.py lines 427-493), under
the standing assumptions that the ACP connection is present and the session
exists (the two early deny branches guard exactly those). The client response
to the reverse call is passed as a parameter; the first component of the
result is the reverse call that was issued, if any. -/
def can_use_tool (permission_mode tool_name : String) (tool_input : ToolInput)
    (response : PermissionOutcome) :
    Option PermissionRequestSent × PermissionResult :=
  if permission_mode = "bypassPermissions" then
    (none, .allow)
  else if permission_mode = "acceptEdits" ∧
      tool_name ∈ ["Write", "Edit", "MultiEdit"] then
    (none, .allow)
  else
    ( some { options := permission_options,
             title := get_tool_title tool_name tool_input,
             raw_input := tool_input },
      if response.outcome = "selected" ∧
          (response.option_id = "allow" ∨ response.option_id = "allow_always")
      then .allow
      else .deny "User denied permission" )

/-- Per-session state kept by `ClaudeAcpAgent` (the `Session` dataclass of
agent.py); the `tool_use_cache` content is opaque to the operations modelled
here and is omitted. -/
structure Session where
  session_id : String
  cwd : String
  permission_mode : String := "default"
  cancelled : Bool := false
deriving DecidableEq

/-- The `_sessions` dictionary of `ClaudeAcpAgent`, as an association list
keyed by session id. -/
abbrev AgentSessions := List (String × Session)

/-- Update the session stored under `sid`, if present. -/
def updateSession (sessions : AgentSessions) (sid : String)
    (f : Session → Session) : AgentSessions :=
  List.map (fun p => if p.1 = sid then (p.1, f p.2) else p) sessions

/-- The `valid_modes` list of `ClaudeAcpAgent.set_session_mode`. -/
def valid_modes : List String :=
  ["default", "acceptEdits", "plan", "bypassPermissions", "dontAsk"]

/-- Embedding of `ClaudeAcpAgent.set_session_mode` (agent.py lines 180-194):
raises `ValueError` for an unknown session id and for an invalid mode id,
otherwise records the mode on the session. -/
def set_session_mode (sessions : AgentSessions) (mode_id sid : String) :
    Except String AgentSessions :=
  if (List.lookup sid sessions).isNone then
    .error ("Session not found: " ++ sid)
  else if mode_id ∉ valid_modes then
    .error ("Invalid mode: " ++ mode_id)
  else
    .ok (updateSession sessions sid fun s => { s with permission_mode := mode_id })

/-- Embedding of `ClaudeAcpAgent.cancel` (agent.py lines 263-267): sets the
cancelled flag when the session exists and silently does nothing otherwise;
it never raises. -/
def cancel (sessions : AgentSessions) (sid : String) :
    Except String AgentSessions :=
  .ok (if (List.lookup sid sessions).isSome then
         updateSession sessions sid fun s => { s with cancelled := true }
       else sessions)

/-- Embedding of `ClaudeAcpAgent.set_session_model` (agent.py lines 593-604):
a stub that logs the request and returns an empty response without consulting
the session map; it never raises and changes nothing. -/
def set_session_model (sessions : AgentSessions) (model_id sid : String) :
    Except String AgentSessions :=
  .ok sessions

end Agent

namespace AcpClient

/-- Relevant mutable state of an `AcpClient` instance (acp_client.py):
`connected` stands for `_connection is not None`, the other fields model
`_session_id`, `_pending_model`, `_text_buffer` and the constructor argument
`cwd`. -/
structure ClientState where
  connected : Bool := false
  session_id : Option String := none
  pending_model : Option String := none
  text_buffer : String := ""
  cwd : String := "."
deriving DecidableEq

/-- Requests the client stub sends to the backend agent over the ACP
connection, in the order they are issued. The MCP server list passed to
`new_session` does not interact with the modelled state and is omitted. -/
inductive BackendRequest
  | newSession (cwd : String)
  | setSessionModel (model_id session_id : String)
  | promptReq (session_id text : String)
deriving DecidableEq

/-- Recognizer for `set_session_model` requests. -/
def BackendRequest.isSetSessionModel : BackendRequest → Bool
  | .setSessionModel _ _ => true
  | _ => false

/-- Embedding of `AcpClient.set_model` (acp_client.py lines 400-416): with no
connection or no session, the model is stored in the pending slot and nothing
is sent; otherwise a `set_session_model` request is sent at once. Returns the
new state and the requests sent. -/
def set_model (st : ClientState) (model : String) :
    ClientState × List BackendRequest :=
  if st.connected = false ∨ st.session_id = none then
    ({ st with pending_model := some model }, [])
  else
    (st, [.setSessionModel model (st.session_id.getD "")])

/-- Embedding of `AcpClient.new_session` (acp_client.py lines 307-347).
`backend_sid` is the session id the backend returns; `apply_model_ok` tells
whether the `set_session_model` request used to apply a pending model
succeeds on the backend. A failure there is caught and logged, and the
`finally` block clears the pending slot either way, so the result does not
depend on `apply_model_ok`. Raises (returns `.error`) only when not
connected. -/
def new_session (st : ClientState) (backend_sid : String)
    (apply_model_ok : Bool) : Except String (ClientState × List BackendRequest) :=
  if st.connected = false then .error "Not connected"
  else
    let st1 := { st with session_id := some backend_sid }
    match st1.pending_model with
    | some m =>
      .ok ({ st1 with pending_model := none },
        [.newSession st.cwd, .setSessionModel m backend_sid])
    | none => .ok (st1, [.newSession st.cwd])

/-- Embedding of `AcpClient.prompt` (acp_client.py lines 349-383). When no
session exists yet, `new_session` runs first (also applying any pending
model). The `_text_buffer` is reset to empty, the prompt request is sent, and
the inbound `AgentMessageChunk` texts received during the prompt (`chunks`)
are folded through `session_update_text`; the accumulated buffer is the
return value. -/
def promptText (st : ClientState) (text : String) (backend_sid : String)
    (apply_model_ok : Bool) (chunks : List String) :
    Except String (ClientState × List BackendRequest × String) :=
  if st.connected = false then .error "Not connected"
  else
    match (if st.session_id = none then
             new_session st backend_sid apply_model_ok
           else .ok (st, [])) with
    | .error e => .error e
    | .ok (st1, reqs) =>
      let sid := st1.session_id.getD ""
      let buf := (runChunksFrom "" chunks).1
      .ok ({ st1 with text_buffer := buf },
        reqs ++ [.promptReq sid text], buf)

/-- Outcome of the file system access performed by
`ClientHandler.read_text_file` for a path: the Python code first tests
`Path(path).exists()` and then calls `read_text`, which may raise an OS
error whose message is `msg`. -/
inductive FsReadResult
  | found (content : String)
  | notFound
  | ioError (msg : String)
deriving DecidableEq

/-- Wire result of the `fs/read_text_file` handler. -/
structure ReadTextResponse where
  content : String
  error : Option String := none
deriving DecidableEq

/-- The try block of `ClientHandler.read_text_file` (acp_client.py lines
544-554): missing file and I/O errors are converted to in-band error
results. -/
def read_from_disk (fs : String → FsReadResult) (path : String) :
    ReadTextResponse :=
  match fs path with
  | .found c => { content := c }
  | .notFound => { content := "", error := some ("File not found: " ++ path) }
  | .ioError m => { content := "", error := some m }

/-- Embedding of `ClientHandler.read_text_file` (acp_client.py lines
520-554). The optional `on_file_read` hook is consulted first; a non-null
hook result overrides the content. The function is total: every path yields
a `ReadTextResponse`, never an exception across the wire. -/
def read_text_file (hook : Option (String → Option String))
    (fs : String → FsReadResult) (path : String) : ReadTextResponse :=
  match hook with
  | some h =>
    match h path with
    | some override => { content := override }
    | none => read_from_disk fs path
  | none => read_from_disk fs path

end AcpClient

namespace PyJson

/-- JSON values as exchanged on the proxy wire. Numbers are modelled as
integers: the envelopes the proxy server serializes carry only integers
(ids, timestamps, error codes); floating point numbers are outside the
model. -/
inductive Json
  | null
  | bool (b : Bool)
  | int (n : Int)
  | str (s : String)
  | arr (elems : List Json)
  | obj (fields : List (String × Json))

/-- Lowercase hexadecimal digit character for a value below 16, as produced
by the CPython %04x formatting of \u escapes. -/
def hexDigitChar (n : Nat) : Char :=
  if n < 10 then Char.ofNat (48 + n) else Char.ofNat (87 + n)

/-- A \uXXXX escape sequence for a code unit below 0x10000. -/
def uEscape (n : Nat) : List Char :=
  ['\\', 'u', hexDigitChar (n / 4096 % 16), hexDigitChar (n / 256 % 16),
   hexDigitChar (n / 16 % 16), hexDigitChar (n % 16)]

/-- Escaping of one character inside a JSON string, mirroring the CPython
encoder with ensure_ascii (the json.dumps default): quote and backslash get
two-character escapes, printable ASCII passes through, the five short
control escapes apply, every other character becomes \uXXXX, with a
surrogate pair for code points above 0xFFFF. -/
def escapeChar (c : Char) : List Char :=
  let n := c.toNat
  if c = '"' then ['\\', '"']
  else if c = '\\' then ['\\', '\\']
  else if 32 ≤ n ∧ n ≤ 126 then [c]
  else if n = 8 then ['\\', 'b']
  else if n = 9 then ['\\', 't']
  else if n = 10 then ['\\', 'n']
  else if n = 12 then ['\\', 'f']
  else if n = 13 then ['\\', 'r']
  else if n < 65536 then uEscape n
  else
    uEscape (55296 + (n - 65536) / 1024) ++ uEscape (56320 + (n - 65536) % 1024)

/-- Escape every character of a string body. -/
def escapeString (s : List Char) : List Char := s.flatMap escapeChar

/-- A serialized JSON string: quote, escaped body, quote. -/
def quoteString (s : String) : List Char := '"' :: (escapeString s.data ++ ['"'])

/-- Decimal digits of a positive number, most significant first; `fuel`
bounds the recursion and any `fuel` at least `n` is exact. -/
def natDigits : Nat → Nat → List Char
  | 0, _ => []
  | fuel + 1, n =>
    if n = 0 then [] else natDigits fuel (n / 10) ++ [Char.ofNat (48 + n % 10)]

/-- Decimal representation of a natural number, as Python str(int). -/
def natToChars (n : Nat) : List Char :=
  if n = 0 then ['0'] else natDigits (n + 1) n

/-- Decimal representation of an integer, as Python str(int). -/
def intToChars : Int → List Char
  | .ofNat n => natToChars n
  | .negSucc m => '-' :: natToChars (m + 1)

mutual

/-- Compact serialization of a JSON value: the model of
json.dumps(message, separators set to comma and colon), which emits no
insignificant whitespace and, with the default ensure_ascii, only ASCII
characters. -/
def dumps : Json → List Char
  | .null => "null".data
  | .bool true => "true".data
  | .bool false => "false".data
  | .int n => intToChars n
  | .str s => quoteString s
  | .arr xs => '[' :: (dumpsList xs ++ [']'])
  | .obj fs => '\x7b' :: (dumpsFields fs ++ ['\x7d'])

/-- Array elements joined by commas. -/
def dumpsList : List Json → List Char
  | [] => []
  | [x] => dumps x
  | x :: y :: rest => dumps x ++ ',' :: dumpsList (y :: rest)

/-- Object members, each a quoted key, a colon and a value, joined by
commas; insertion order is preserved as in a Python dict. -/
def dumpsFields : List (String × Json) → List Char
  | [] => []
  | [(k, v)] => quoteString k ++ ':' :: dumps v
  | (k, v) :: f :: rest =>
    quoteString k ++ ':' :: dumps v ++ ',' :: dumpsFields (f :: rest)

end

/-- Value of a hexadecimal digit character, either case. -/
def hexVal (c : Char) : Option Nat :=
  let n := c.toNat
  if 48 ≤ n ∧ n ≤ 57 then some (n - 48)
  else if 97 ≤ n ∧ n ≤ 102 then some (n - 87)
  else if 65 ≤ n ∧ n ≤ 70 then some (n - 55)
  else none

/-- Value of a four-digit hexadecimal escape payload. -/
def hex4 (a b c d : Char) : Option Nat :=
  match hexVal a, hexVal b, hexVal c, hexVal d with
  | some ha, some hb, some hc, some hd =>
    some (((ha * 16 + hb) * 16 + hc) * 16 + hd)
  | _, _, _, _ => none

/-- Decode one backslash escape after the backslash, following the
json.loads scanner in strict mode: the decoded character and the remaining
input. A \uXXXX high surrogate must be completed by a second low surrogate
escape (an unpaired surrogate escape is rejected here, where the Python
decoder would keep a lone surrogate that no Lean Char can represent; the
serializer never emits one). -/
def parseEscape : List Char → Option (Char × List Char)
  | [] => none
  | e :: rest2 =>
    if e = '"' then some ('"', rest2)
    else if e = '\\' then some ('\\', rest2)
    else if e = '/' then some ('/', rest2)
    else if e = 'b' then some (Char.ofNat 8, rest2)
    else if e = 'f' then some (Char.ofNat 12, rest2)
    else if e = 'n' then some (Char.ofNat 10, rest2)
    else if e = 'r' then some (Char.ofNat 13, rest2)
    else if e = 't' then some (Char.ofNat 9, rest2)
    else if e = 'u' then
      match rest2 with
      | a :: b :: c2 :: d :: rest3 =>
        match hex4 a b c2 d with
        | none => none
        | some h1 =>
          if 55296 ≤ h1 ∧ h1 < 56320 then
            match rest3 with
            | b1 :: u1 :: a2 :: b2 :: c3 :: d2 :: rest4 =>
              if b1 = '\\' ∧ u1 = 'u' then
                match hex4 a2 b2 c3 d2 with
                | none => none
                | some h2 =>
                  if 56320 ≤ h2 ∧ h2 < 57344 then
                    some (Char.ofNat (65536 + (h1 - 55296) * 1024 + (h2 - 56320)),
                      rest4)
                  else none
              else none
            | _ => none
          else if 56320 ≤ h1 ∧ h1 < 57344 then none
          else some (Char.ofNat h1, rest3)
      | _ => none
    else none

/-- Parse the body of a JSON string after the opening quote, following the
json.loads scanner in strict mode: a closing quote ends the string, raw
control characters are rejected, and backslash escapes are decoded by
`parseEscape`. Returns the decoded characters and the remaining input. The
fuel argument only bounds the recursion; every call site passes the input
length, which exceeds the number of decoded characters, so the model never
exhausts it. -/
def parseStringBody : Nat → List Char → Option (List Char × List Char)
  | 0, _ => none
  | fuel + 1, l =>
    match l with
    | [] => none
    | c :: rest =>
      if c = '"' then some ([], rest)
      else if c = '\\' then
        match parseEscape rest with
        | none => none
        | some (d, rest2) =>
          (parseStringBody fuel rest2).map fun p => (d :: p.1, p.2)
      else if c.toNat < 32 then none
      else (parseStringBody fuel rest).map fun p => (c :: p.1, p.2)

/-- ASCII decimal digit test. -/
def isDigitChar (c : Char) : Bool := 48 ≤ c.toNat && c.toNat ≤ 57

/-- Value of a list of decimal digit characters. -/
def digitsVal (ds : List Char) : Nat :=
  ds.foldl (fun a c => a * 10 + (c.toNat - 48)) 0

/-- Characters that would continue a JSON number beyond its integer part;
their presence means a float, which the integer-only model rejects. -/
def isNumberTailChar (c : Char) : Bool :=
  c = '.' || c = 'e' || c = 'E'

/-- Parse the integer part of a JSON number from a digit sequence: the JSON
grammar allows a single 0 or a nonzero leading digit, and the model refuses
the float continuations. Returns the value and the remaining input. -/
def parseDigits (t : List Char) : Option (Nat × List Char) :=
  let ds := t.takeWhile isDigitChar
  let rest := t.dropWhile isDigitChar
  if ds.isEmpty then none
  else if 1 < ds.length ∧ ds.headD '0' = '0' then none
  else
    match rest with
    | c :: _ => if isNumberTailChar c then none else some (digitsVal ds, rest)
    | [] => some (digitsVal ds, [])

/-- Parse a JSON integer, with an optional leading minus sign. -/
def parseNumber (s : List Char) : Option (Json × List Char) :=
  match s with
  | [] => none
  | c :: t =>
    if c = '-' then (parseDigits t).map fun p => (.int (-(p.1 : Int)), p.2)
    else (parseDigits (c :: t)).map fun p => (.int (p.1 : Int), p.2)

mutual

/-- Recursive descent parser for the compact JSON emitted by `dumps`,
modelling json.loads on such documents (whitespace tolerance of the Python
scanner is not modelled; the compact serializer emits none). The fuel
argument bounds recursion depth; `loads` supplies enough for any input. -/
def parseValue : Nat → List Char → Option (Json × List Char)
  | 0, _ => none
  | fuel + 1, s =>
    match s with
    | [] => none
    | c :: rest =>
      if c = 'n' then
        match rest with
        | 'u' :: 'l' :: 'l' :: r => some (.null, r)
        | _ => none
      else if c = 't' then
        match rest with
        | 'r' :: 'u' :: 'e' :: r => some (.bool true, r)
        | _ => none
      else if c = 'f' then
        match rest with
        | 'a' :: 'l' :: 's' :: 'e' :: r => some (.bool false, r)
        | _ => none
      else if c = '"' then
        (parseStringBody rest.length rest).map fun p => (.str (String.mk p.1), p.2)
      else if c = '[' then
        match rest with
        | [] => none
        | c2 :: rest2 =>
          if c2 = ']' then some (.arr [], rest2)
          else
            match parseValue fuel (c2 :: rest2) with
            | none => none
            | some (v, r1) =>
              match parseArrayTail fuel r1 with
              | none => none
              | some (vs, r2) => some (.arr (v :: vs), r2)
      else if c = '\x7b' then
        match rest with
        | [] => none
        | c2 :: rest2 =>
          if c2 = '\x7d' then some (.obj [], rest2)
          else if c2 = '"' then
            match parseStringBody rest2.length rest2 with
            | none => none
            | some (k, r1) =>
              match r1 with
              | ':' :: r2 =>
                match parseValue fuel r2 with
                | none => none
                | some (v, r3) =>
                  match parseObjTail fuel r3 with
                  | none => none
                  | some (fs, r4) => some (.obj ((String.mk k, v) :: fs), r4)
              | _ => none
          else none
      else parseNumber (c :: rest)

/-- Parse the rest of an array after one element: a closing bracket ends
it, a comma is followed by another element. -/
def parseArrayTail : Nat → List Char → Option (List Json × List Char)
  | 0, _ => none
  | fuel + 1, s =>
    match s with
    | [] => none
    | c :: rest =>
      if c = ']' then some ([], rest)
      else if c = ',' then
        match parseValue fuel rest with
        | none => none
        | some (v, r1) =>
          match parseArrayTail fuel r1 with
          | none => none
          | some (vs, r2) => some (v :: vs, r2)
      else none

/-- Parse the rest of an object after one member: a closing brace ends it,
a comma is followed by another quoted key, colon and value. -/
def parseObjTail : Nat → List Char → Option (List (String × Json) × List Char)
  | 0, _ => none
  | fuel + 1, s =>
    match s with
    | [] => none
    | c :: rest =>
      if c = '\x7d' then some ([], rest)
      else if c = ',' then
        match rest with
        | [] => none
        | c2 :: rest2 =>
          if c2 = '"' then
            match parseStringBody rest2.length rest2 with
            | none => none
            | some (k, r1) =>
              match r1 with
              | ':' :: r2 =>
                match parseValue fuel r2 with
                | none => none
                | some (v, r3) =>
                  match parseObjTail fuel r3 with
                  | none => none
                  | some (fs, r4) => some ((String.mk k, v) :: fs, r4)
              | _ => none
          else none
      else none

end

/-- Model of json.loads on a complete document: parse one value and require
that the whole input is consumed, as the Python decoder raises on extra
data. The fuel passed is always sufficient (see `size_le_dumps_length`). -/
def loads (s : List Char) : Option Json :=
  match parseValue (2 * s.length + 1) s with
  | some (v, []) => some v
  | _ => none

mutual

/-- Parser fuel measure of a JSON value. -/
def jsize : Json → Nat
  | .null => 1
  | .bool _ => 1
  | .int _ => 1
  | .str _ => 1
  | .arr xs => 1 + jsizeList xs
  | .obj fs => 1 + jsizeFields fs

/-- Parser fuel measure of the elements of an array. -/
def jsizeList : List Json → Nat
  | [] => 1
  | v :: vs => 1 + jsize v + jsizeList vs

/-- Parser fuel measure of the members of an object. -/
def jsizeFields : List (String × Json) → Nat
  | [] => 1
  | f :: fs => 1 + jsize f.2 + jsizeFields fs

end

/-- Serialization of the rest of an array after its first element. -/
def arrayTailEnc : List Json → List Char
  | [] => [']']
  | v :: vs => ',' :: (dumps v ++ arrayTailEnc vs)

/-- Serialization of the rest of an object after its first member. -/
def objTailEnc : List (String × Json) → List Char
  | [] => ['\x7d']
  | f :: fs => ',' :: (quoteString f.1 ++ ':' :: (dumps f.2 ++ objTailEnc fs))

/-- A continuation in front of which a serialized integer parses back
without absorbing further characters: empty, or starting with a character
that neither extends the digit run nor starts a float suffix. -/
def numSafe : List Char → Bool
  | [] => true
  | c :: _ => !(isDigitChar c || isNumberTailChar c)

end PyJson

namespace Proxy

open PyJson (Json)

/-- A CPP event envelope as built by `create_session_event` (protocol.py):
a type tag and a data object. The generated envelope id (uuid4) and ISO
timestamp, and the generated messageId and turnId fields inside `data`,
are omitted from the model; they are fresh random values that do not
influence which events are logged or delivered, or their order. -/
structure CppEvent where
  type : String
  data : Json

/-- Event built by `create_assistant_message_delta_event`. -/
def assistant_message_delta_event (t : String) : CppEvent :=
  ⟨"assistant.message_delta", .obj [("deltaContent", .str t)]⟩

/-- Event for `SessionEventType.ASSISTANT_REASONING_DELTA` as built in
`_setup_backend_handlers`. -/
def assistant_reasoning_delta_event (t : String) : CppEvent :=
  ⟨"assistant.reasoning_delta", .obj [("deltaContent", .str t)]⟩

/-- Event built by `create_tool_execution_start_event`. -/
def tool_execution_start_event (tool_call_id tool_name : String)
    (arguments : Json) : CppEvent :=
  ⟨"tool.execution_start",
   .obj [("toolCallId", .str tool_call_id), ("toolName", .str tool_name),
         ("arguments", arguments)]⟩

/-- Event built by `create_tool_execution_complete_event`. -/
def tool_execution_complete_event (tool_call_id : String) (success : Bool)
    (result : Json) : CppEvent :=
  ⟨"tool.execution_complete",
   .obj [("toolCallId", .str tool_call_id), ("success", .bool success),
         ("result", result)]⟩

/-- Turn end event emitted by the `on_complete` handler (turnId omitted). -/
def assistant_turn_end_event : CppEvent := ⟨"assistant.turn_end", .obj []⟩

/-- Idle event emitted by the `on_complete` handler. -/
def session_idle_event : CppEvent := ⟨"session.idle", .obj []⟩

/-- User message event emitted by `_handle_session_send` (messageId
omitted). -/
def user_message_event (content : String) : CppEvent :=
  ⟨"user.message", .obj [("content", .str content)]⟩

/-- Turn start event emitted by `_handle_session_send` (turnId omitted). -/
def assistant_turn_start_event : CppEvent := ⟨"assistant.turn_start", .obj []⟩

/-- Final assistant message event built by `create_assistant_message_event`
(messageId omitted). -/
def assistant_message_event (content : String) : CppEvent :=
  ⟨"assistant.message", .obj [("content", .str content), ("toolRequests", .arr [])]⟩

/-- Error event emitted by `_handle_session_send` on a failure. -/
def session_error_event (e : String) : CppEvent :=
  ⟨"session.error", .obj [("error", .str e)]⟩

/-- Session start event emitted by `_handle_session_create`. -/
def session_start_event (cwd model : String) : CppEvent :=
  ⟨"session.start", .obj [("cwd", .str cwd), ("model", .str model)]⟩

/-- Shutdown event emitted by `_handle_session_destroy`. -/
def session_shutdown_event : CppEvent := ⟨"session.shutdown", .obj []⟩

/-- Abort event emitted by `_handle_session_abort`. -/
def abort_event : CppEvent := ⟨"abort", .obj []⟩

/-- One session update arriving from the backend ACP client during a prompt,
as dispatched to the handlers registered by
`ProxySessionManager._setup_backend_handlers` (session_manager.py lines
315-391): text, thinking, tool start, tool end, or prompt completion. -/
inductive BackendUpdate
  | text (t : String)
  | thinking (t : String)
  | toolStart (tool_id name : String) (input : Json)
  | toolEnd (tool_id status : String) (output : Json)
  | complete

/-- The CPP events one backend update produces in the handlers of
`_setup_backend_handlers`; each is appended to the session event log and
delivered to the event callback. `on_tool_end` reports success when the
status is the empty string or "success"; `on_complete` produces the turn
end event followed by the idle event. -/
def backend_update_events : BackendUpdate → List CppEvent
  | .text t => [assistant_message_delta_event t]
  | .thinking t => [assistant_reasoning_delta_event t]
  | .toolStart tool_id name input => [tool_execution_start_event tool_id name input]
  | .toolEnd tool_id status output =>
    [tool_execution_complete_event tool_id (status = "success" || status = "") output]
  | .complete => [assistant_turn_end_event, session_idle_event]

/-- The event types produced by the backend translation handlers, the only
events ever appended to a ProxySession event log. -/
def backend_event_types : List String :=
  ["assistant.message_delta", "assistant.reasoning_delta",
   "tool.execution_start", "tool.execution_complete",
   "assistant.turn_end", "session.idle"]

/-- Test whether an event carries one of the backend handler types. -/
def isBackendEvent (e : CppEvent) : Bool := e.type ∈ backend_event_types

/-- Mutable state of one ProxySession (session_manager.py) restricted to the
fields the modelled operations touch; the backend client handle, creation
time and event callback identity are omitted. -/
structure ProxySession where
  session_id : String
  model : Option String := none
  working_directory : String := "."
  modified_at : Nat := 0
  events : List CppEvent := []
  is_active : Bool := true

/-- The `_sessions` dictionary of `ProxySessionManager`, as an association
list keyed by session id. -/
abbrev MgrState := List (String × ProxySession)

/-- Update the proxy session stored under `sid`, if present. -/
def updateProxySession (mgr : MgrState) (sid : String)
    (f : ProxySession → ProxySession) : MgrState :=
  List.map (fun p => if p.1 = sid then (p.1, f p.2) else p) mgr

/-- Embedding of `ProxySessionManager.send_message` (session_manager.py
lines 162-192) together with the backend handler side effects that happen
while `backend_client.prompt` runs: an unknown session id raises
`ValueError`; otherwise `modified_at` is set to `now`, the backend updates
`updates` are translated and appended to the session event log (and
delivered to the callback: the second component), and the prompt outcome
`prompt_result` (the response text, or a raised exception) is returned. -/
def send_message (mgr : MgrState) (sid : String) (now : Nat)
    (updates : List BackendUpdate) (prompt_result : Except String String) :
    MgrState × List CppEvent × Except String String :=
  match List.lookup sid mgr with
  | none => (mgr, [], .error ("Session not found: " ++ sid))
  | some _ =>
    let evs := updates.flatMap backend_update_events
    let mgr1 := updateProxySession mgr sid fun s =>
      { s with modified_at := now, events := s.events ++ evs }
    (mgr1, evs, prompt_result)

/-- Embedding of `ProxySessionManager.destroy_session` (session_manager.py
lines 194-214): unknown ids return silently; otherwise the session is
marked inactive (and its backend client disconnected, best effort) but the
record is retained. It never raises. -/
def destroy_session (mgr : MgrState) (sid : String) :
    Except String MgrState :=
  .ok (match List.lookup sid mgr with
       | none => mgr
       | some _ => updateProxySession mgr sid fun s => { s with is_active := false })

/-- Embedding of `ProxySessionManager.abort_session` (session_manager.py
lines 261-268): when the session exists, a cancel is sent to the backend
(the boolean result); an unknown id does nothing. It never raises. -/
def abort_session (mgr : MgrState) (sid : String) :
    Except String (MgrState × Bool) :=
  .ok (mgr, (List.lookup sid mgr).isSome)

/-- Python truthiness of an optional string parameter: absent and empty are
both falsy. -/
def truthy : Option String → Bool
  | none => false
  | some s => s != ""

/-- The params dictionary of a session.send request, restricted to the keys
`_handle_session_send` reads (`attachments` is forwarded but unused). -/
structure SendParams where
  sessionId : Option String := none
  prompt : Option String := none

/-- Embedding of `AcpProxyServer._handle_session_send` (server.py lines
419-467). Result components: the manager state afterwards, the event
envelopes delivered to the client via session.event notifications in
order, and the handler outcome (`.ok` stands for the `{messageId}` result,
whose generated uuid is omitted; `.error` is a raised exception). A missing
or empty sessionId or prompt raises `ValueError` before any event is sent;
otherwise the user message and turn start events are emitted, the manager
sends the prompt, and a final assistant message (on success) or a session
error event (on failure, with the exception re-raised) follows. -/
def handle_session_send (mgr : MgrState) (params : SendParams) (now : Nat)
    (updates : List BackendUpdate) (prompt_result : Except String String) :
    MgrState × List CppEvent × Except String Unit :=
  if truthy params.sessionId = false then
    (mgr, [], .error "sessionId is required")
  else if truthy (some (params.prompt.getD "")) = false then
    (mgr, [], .error "prompt is required")
  else
    let sid := params.sessionId.getD ""
    let promptv := params.prompt.getD ""
    let pre := [user_message_event promptv, assistant_turn_start_event]
    let step := send_message mgr sid now updates prompt_result
    match step.2.2 with
    | .ok resp => (step.1, pre ++ step.2.1 ++ [assistant_message_event resp], .ok ())
    | .error e => (step.1, pre ++ step.2.1 ++ [session_error_event e], .error e)

/-- Embedding of `AcpProxyServer._handle_session_destroy` (server.py lines
469-478): with a truthy sessionId the shutdown event is emitted and the
manager destroy runs; the handler always returns the empty result. -/
def handle_session_destroy (mgr : MgrState) (sessionId : Option String) :
    MgrState × List CppEvent × Except String Unit :=
  if truthy sessionId then
    match destroy_session mgr (sessionId.getD "") with
    | .ok mgr1 => (mgr1, [session_shutdown_event], .ok ())
    | .error e => (mgr, [session_shutdown_event], .error e)
  else (mgr, [], .ok ())

/-- Embedding of `AcpProxyServer._handle_session_abort` (server.py lines
480-489): with a truthy sessionId the manager abort runs and then the abort
event is emitted; the handler always returns the empty result. -/
def handle_session_abort (mgr : MgrState) (sessionId : Option String) :
    MgrState × List CppEvent × Except String Unit :=
  if truthy sessionId then
    match abort_session mgr (sessionId.getD "") with
    | .ok p => (p.1, [abort_event], .ok ())
    | .error e => (mgr, [abort_event], .error e)
  else (mgr, [], .ok ())

/-- Embedding of `ProxySessionManager.get_session_events`, the body of the
session.getMessages handler: the event log of the session, or empty when
unknown. -/
def get_session_events (mgr : MgrState) (sid : String) : List CppEvent :=
  match List.lookup sid mgr with
  | none => []
  | some s => s.events

/-- A JSON-RPC error object as sent by `AcpProxyServer._send_error`. -/
structure JsonRpcError where
  code : Int
  message : String
deriving DecidableEq

/-- The exception wrapping in `AcpProxyServer._handle_message` (server.py
lines 191-198): a handler exception is surfaced to the requester as a
JSON-RPC error with code -32603 and the exception text as message. -/
def handle_message_outcome {α : Type} : Except String α → Except JsonRpcError α
  | .error e => .error ⟨-32603, e⟩
  | .ok a => .ok a

/-- Commands a CPP client can aim at one established session, with the
backend activity each prompt triggers. -/
inductive ProxyCommand
  | send (prompt : String) (updates : List BackendUpdate)
      (prompt_result : Except String String)
  | destroy
  | abort

/-- Run one CPP command against the session `sid`, threading the manager
state and accumulating the event envelopes delivered to the event sink. -/
def run_session_command (sid : String) (st : MgrState × List CppEvent)
    (c : ProxyCommand) : MgrState × List CppEvent :=
  match c with
  | .send promptv updates res =>
    let r := handle_session_send st.1
      { sessionId := some sid, prompt := some promptv } 0 updates res
    (r.1, st.2 ++ r.2.1)
  | .destroy =>
    let r := handle_session_destroy st.1 (some sid)
    (r.1, st.2 ++ r.2.1)
  | .abort =>
    let r := handle_session_abort st.1 (some sid)
    (r.1, st.2 ++ r.2.1)

/-- Lifetime of one proxy session: `session.create` stores a fresh session
(empty event log) and `_handle_session_create` emits the session start
event to the sink; then the commands run in order. Returns the final
manager state and the full stream of envelopes the sink received. -/
def session_lifetime (sid cwd model : String) (cmds : List ProxyCommand) :
    MgrState × List CppEvent :=
  cmds.foldl (run_session_command sid)
    ([(sid, { session_id := sid, working_directory := cwd, model := some model })],
     [session_start_event cwd model])

/-- UTF-8 byte width of a character, used because the Content-Length header
counts the bytes of content.encode("utf-8"). -/
def utf8Width (c : Char) : Nat :=
  if c.toNat < 128 then 1
  else if c.toNat < 2048 then 2
  else if c.toNat < 65536 then 3
  else 4

/-- UTF-8 byte length of a character sequence. -/
def utf8Length (s : List Char) : Nat := (s.map utf8Width).sum

/-- Embedding of `AcpProxyServer._send_message` (server.py lines 270-279):
serialize the message compactly, then write the ASCII Content-Length header,
the blank line and the payload. The model carries the wire as a character
sequence; the serializer output is pure ASCII (`dumps_all_ascii`), so its
characters are exactly its UTF-8 bytes. -/
def send_message_frame (m : Json) : List Char :=
  let content := PyJson.dumps m
  "Content-Length: ".data ++ PyJson.natToChars (utf8Length content)
    ++ ['\r', '\n', '\r', '\n'] ++ content

/-- Python readline: everything up to and including the first newline (or
the whole input at end of stream), and the remainder. -/
def readLine : List Char → List Char × List Char
  | [] => ([], [])
  | c :: rest =>
    if c = '\n' then ([c], rest)
    else
      let p := readLine rest
      (c :: p.1, p.2)

/-- Python bytes.strip default whitespace. -/
def isPySpace (c : Char) : Bool :=
  c.toNat = 32 || c.toNat = 9 || c.toNat = 10 ||
  c.toNat = 13 || c.toNat = 11 || c.toNat = 12

/-- Python strip(): drop whitespace from both ends. -/
def stripChars (l : List Char) : List Char :=
  ((l.dropWhile isPySpace).reverse.dropWhile isPySpace).reverse

/-- Python int() on a stripped digit string: accepts a nonempty run of
decimal digits (sign forms never occur in a Content-Length header). -/
def parsePyInt (l : List Char) : Option Nat :=
  if l ≠ [] ∧ l.all PyJson.isDigitChar then some (PyJson.digitsVal l) else none

/-- One iteration of `AcpProxyServer._process_messages` (server.py lines
115-156) on a well formed frame: read the header line, strip it, require
the Content-Length prefix, parse the length from between the first and
second colon, consume the blank separator line, read exactly that many
characters and decode them with json.loads. Any failure the loop would
log-and-continue over is `none` here. -/
def process_one_frame (stream : List Char) : Option (Json × List Char) :=
  let p1 := readLine stream
  let header := stripChars p1.1
  if header = [] then none
  else if header.take 15 ≠ "Content-Length:".data then none
  else
    let afterColon := (header.dropWhile fun c => c != ':').drop 1
    let numPart := stripChars (afterColon.takeWhile fun c => c != ':')
    match parsePyInt numPart with
    | none => none
    | some n =>
      let p2 := readLine p1.2
      let content := p2.2.take n
      let rest := p2.2.drop n
      match PyJson.loads content with
      | none => none
      | some m => some (m, rest)

end Proxy


open AcpClient Agent Proxy PyJson


theorem runChunksFrom_buffer_concat (buf : String) (ts : List String) :
    (runChunksFrom buf ts).1 = buf ++ concatList (runChunksFrom buf ts).2 := by
  induction ts generalizing buf with
  | nil => simp [runChunksFrom, concatList]
  | cons t ts ih =>
    simp only [runChunksFrom, session_update_text]
    by_cases h : (t != "" && !(strIn t buf)) = true
    · rw [if_pos h]
      simp only [Option.toList]
      rw [ih (buf ++ t)]
      simp [concatList, String.append_assoc]
    · rw [if_neg h]
      simp only [Option.toList, List.nil_append]
      exact ih buf


/-- Claim C2. The claim states the prefix-suffix deduplication rule of the
spec; the counterexample shows the code dropping a chunk only on substring
containment: on the inbound sequence He, Hello, Hello, " world" the emitted
deltas are not He, llo, " world" and the final buffer is not "Hello world".
-/
theorem C2_counterexample :
    ¬ ((runChunksFrom "" ["He", "Hello", "Hello", " world"]).2
        = ["He", "llo", " world"] ∧
       (runChunksFrom "" ["He", "Hello", "Hello", " world"]).1
        = "Hello world") := by
  decide

/-- Claim C2, amended. During one prompt the text buffer starts empty and an
inbound chunk t is emitted in full and appended to the buffer precisely when
t is non-empty and does not occur as a substring of the buffer; otherwise it
is dropped and the buffer is unchanged. Hence the buffer always equals the
concatenation of the emitted deltas, and on the inbound sequence He, Hello,
Hello, " world" the emitted deltas are He, Hello, " world" with final
accumulated text "HeHello world". -/
theorem C2_amended_substring_dedup :
    (runChunksFrom "" ["He", "Hello", "Hello", " world"]).2
      = ["He", "Hello", " world"] ∧
    (runChunksFrom "" ["He", "Hello", "Hello", " world"]).1
      = "HeHello world" ∧
    (∀ buf t, (t ≠ "" ∧ ¬ t.data <:+: buf.data →
        session_update_text buf t = (buf ++ t, some t)) ∧
      (t = "" ∨ t.data <:+: buf.data →
        session_update_text buf t = (buf, none))) ∧
    ∀ ts, (runChunksFrom "" ts).1 = concatList (runChunksFrom "" ts).2 := by
  refine ⟨by decide, by decide, ?_, fun ts => runChunksFrom_buffer_concat "" ts⟩
  intro buf t
  constructor
  · rintro ⟨h1, h2⟩
    simp [session_update_text, strIn, h1, h2]
  · rintro (h | h) <;> simp [session_update_text, strIn, h]

/-- Claim C2 witness: the amended characterization applied at a concrete
buffer and chunk. -/
theorem C2_amended_substring_dedup_witness :
    session_update_text "HeHello" "Hello" = ("HeHello", none) :=
  ((C2_amended_substring_dedup.2.2.1 "HeHello" "Hello").2 (Or.inr (by decide)))

set_option maxRecDepth 8000 in
/-- Claim C8. The claim says a Bash command longer than 50 characters is
truncated and ended with the ellipsis character; the code appends three
ASCII periods instead, so on a 51-character command the produced title
differs from the claimed one. -/
theorem C8_counterexample :
    get_tool_title "Bash" { command := some (String.mk (List.replicate 51 'a')) }
      ≠ "Run: " ++ String.mk (List.replicate 50 'a') ++ "…" := by
  decide

/-- Claim C8, amended. Tool call titles follow the fixed rule of
_get_tool_title: Read, Write and Edit give the tool name and the path;
Bash gives Run: and the command, truncated at 50 characters and ended with
three ASCII periods "..." when longer than 50; Glob gives Find files: and
the pattern; Grep gives Search: and the pattern; any other tool name is
returned bare. -/
theorem C8_amended_titles (p cmd pat other : String) (inp : ToolInput) :
    get_tool_title "Read" { file_path := some p } = "Read " ++ p ∧
    get_tool_title "Write" { file_path := some p } = "Write " ++ p ∧
    get_tool_title "Edit" { file_path := some p } = "Edit " ++ p ∧
    (cmd.length ≤ 50 →
      get_tool_title "Bash" { command := some cmd } = "Run: " ++ cmd) ∧
    (50 < cmd.length →
      get_tool_title "Bash" { command := some cmd }
        = "Run: " ++ cmd.take 50 ++ "...") ∧
    get_tool_title "Glob" { pattern := some pat } = "Find files: " ++ pat ∧
    get_tool_title "Grep" { pattern := some pat } = "Search: " ++ pat ∧
    (other ∉ (["Read", "Write", "Edit", "Bash", "Glob", "Grep"] : List String) →
      get_tool_title other inp = other) := by
  refine ⟨?_, ?_, ?_, ?_, ?_, ?_, ?_, ?_⟩
  · simp [get_tool_title, ToolInput.pathField]
  · simp [get_tool_title, ToolInput.pathField]
  · simp [get_tool_title, ToolInput.pathField]
  · intro h
    simp [get_tool_title]
    omega
  · intro h
    simp [get_tool_title]
    omega
  · simp [get_tool_title]
  · simp [get_tool_title]
  · intro h
    simp only [List.mem_cons, List.not_mem_nil, or_false, not_or] at h
    obtain ⟨h1, h2, h3, h4, h5, h6⟩ := h
    simp [get_tool_title, h1, h2, h3, h4, h5, h6]

/-- Claim C8 witness: the amended rule applied to a 51-character command. -/
theorem C8_amended_titles_witness :
    get_tool_title "Bash" { command := some (String.mk (List.replicate 51 'a')) }
      = "Run: " ++ (String.mk (List.replicate 51 'a')).take 50 ++ "..." :=
  (C8_amended_titles "p" (String.mk (List.replicate 51 'a')) "g" "Custom"
    {}).2.2.2.2.1 (by decide)

/-- Claim C4. For every tool permission decision of the agent adapter: in
bypassPermissions mode the tool is allowed without a reverse call; in
acceptEdits mode the tools Write, Edit and MultiEdit are allowed without a
reverse call; otherwise a session/request_permission reverse call is issued
carrying exactly the options of kinds allow_always, allow_once and
reject_once together with the tool title and raw input, the result is allow
exactly when the selected option id is allow or allow_always, and any other
result is a denial with message "User denied permission". -/
theorem C4_permission_policy (mode tool : String) (inp : ToolInput)
    (resp : PermissionOutcome) :
    (mode = "bypassPermissions" →
      can_use_tool mode tool inp resp = (none, .allow)) ∧
    (mode = "acceptEdits" → tool ∈ (["Write", "Edit", "MultiEdit"] : List String) →
      can_use_tool mode tool inp resp = (none, .allow)) ∧
    (mode ≠ "bypassPermissions" →
      ¬ (mode = "acceptEdits" ∧ tool ∈ (["Write", "Edit", "MultiEdit"] : List String)) →
      (can_use_tool mode tool inp resp).1
          = some { options := permission_options,
                   title := get_tool_title tool inp, raw_input := inp } ∧
      permission_options.map PermissionOptionSpec.kind
          = ["allow_always", "allow_once", "reject_once"] ∧
      (resp.outcome = "selected" →
        ((can_use_tool mode tool inp resp).2 = .allow ↔
          (resp.option_id = "allow" ∨ resp.option_id = "allow_always"))) ∧
      ((can_use_tool mode tool inp resp).2 = .allow ∨
        (can_use_tool mode tool inp resp).2 = .deny "User denied permission")) := by
  refine ⟨?_, ?_, ?_⟩
  · intro h
    simp [can_use_tool, h]
  · intro h1 h2
    simp [can_use_tool, h1, h2]
  · intro h1 h2
    have e1 : (can_use_tool mode tool inp resp).1
        = some { options := permission_options,
                 title := get_tool_title tool inp, raw_input := inp } := by
      simp only [can_use_tool, if_neg h1, if_neg h2]
    have e2 : (can_use_tool mode tool inp resp).2
        = if resp.outcome = "selected" ∧
              (resp.option_id = "allow" ∨ resp.option_id = "allow_always")
          then .allow else .deny "User denied permission" := by
      simp only [can_use_tool, if_neg h1, if_neg h2]
    refine ⟨e1, by decide, ?_, ?_⟩
    · intro hsel
      rw [e2]
      by_cases ho : resp.option_id = "allow" ∨ resp.option_id = "allow_always"
      · rw [if_pos ⟨hsel, ho⟩]
        simp [ho]
      · rw [if_neg (fun hc => ho hc.2)]
        simp [ho]
    · rw [e2]
      by_cases hc : resp.outcome = "selected" ∧
          (resp.option_id = "allow" ∨ resp.option_id = "allow_always")
      · left; rw [if_pos hc]
      · right; rw [if_neg hc]

/-- Claim C4 witness: in default mode with tool Write, a client that selects
the reject option gets the denial with message "User denied permission". -/
theorem C4_permission_policy_witness :
    (can_use_tool "default" "Write" {} ⟨"selected", "reject"⟩).2
      = .deny "User denied permission" := by
  have h := (C4_permission_policy "default" "Write" {} ⟨"selected", "reject"⟩).2.2
    (by decide) (by simp)
  rcases h.2.2.2 with h1 | h1
  · rw [(h.2.2.1 rfl)] at h1
    simp at h1
  · exact h1

/-- Claim C6. For every path the read_text_file handler is total and never
raises: a registered hook returning a non-null string overrides the content;
otherwise a missing file yields an empty content with the error
"File not found: path", any other I/O error yields an empty content with the
error message, and on success the UTF-8 content is returned with no error
field. -/
theorem C6_read_text_file_cases (hook : Option (String → Option String))
    (h : String → Option String) (fs : String → FsReadResult)
    (path s c m : String) :
    (hook = some h → h path = some s →
      read_text_file hook fs path = { content := s, error := none }) ∧
    (hook = none ∨ (hook = some h ∧ h path = none) → fs path = .notFound →
      read_text_file hook fs path
        = { content := "", error := some ("File not found: " ++ path) }) ∧
    (hook = none ∨ (hook = some h ∧ h path = none) → fs path = .ioError m →
      read_text_file hook fs path = { content := "", error := some m }) ∧
    (hook = none ∨ (hook = some h ∧ h path = none) → fs path = .found c →
      read_text_file hook fs path = { content := c, error := none }) := by
  refine ⟨?_, ?_, ?_, ?_⟩
  · intro h1 h2
    simp [read_text_file, h1, h2]
  all_goals
    rintro (h1 | ⟨h1, h2⟩) hfs <;>
      simp [read_text_file, read_from_disk, h1, hfs] <;>
      simp [h2]

/-- Claim C6 witness: a hook override and a missing file, exercised at
concrete inputs. -/
theorem C6_read_text_file_cases_witness :
    read_text_file (some fun _ => some "OVERRIDE") (fun _ => .notFound) "/tmp/x"
        = { content := "OVERRIDE", error := none } ∧
    read_text_file none (fun _ => .notFound) "/tmp/x"
        = { content := "", error := some ("File not found: " ++ "/tmp/x") } :=
  ⟨(C6_read_text_file_cases (some fun _ => some "OVERRIDE")
      (fun _ => some "OVERRIDE") (fun _ => .notFound) "/tmp/x" "OVERRIDE" "" "").1
      rfl rfl,
   (C6_read_text_file_cases none (fun _ => some "OVERRIDE")
      (fun _ => .notFound) "/tmp/x" "OVERRIDE" "" "").2.1 (Or.inl rfl) rfl⟩

/-- Claim C3. The claim asserts that all six unknown-session operations
raise ValueError surfaced as -32603; in fact the adapter cancel and
set_session_model return normally on an unknown session id, and the CPP
destroy and abort handlers complete without error as well. -/
theorem C3_counterexample :
    cancel [] "missing" = .ok [] ∧
    set_session_model [] "opus" "missing" = .ok [] ∧
    (handle_session_destroy [] (some "missing")).2.2 = .ok () ∧
    (handle_session_abort [] (some "missing")).2.2 = .ok () :=
  ⟨rfl, rfl, rfl, rfl⟩

/-- Claim C3, amended. With an unknown session id, CPP session.send raises
ValueError ("Session not found") which _handle_message surfaces as JSON-RPC
error -32603, and the adapter set_session_mode raises the same ValueError;
but the adapter cancel and set_session_model are silent no-ops, and CPP
session.destroy and session.abort still emit their event and return an
empty result without error. -/
theorem C3_amended_unknown_session (mgr : MgrState) (sessions : AgentSessions)
    (sid mode model : String) (now : Nat) (updates : List BackendUpdate)
    (pr : Except String String) :
    List.lookup sid mgr = none → List.lookup sid sessions = none →
    ((send_message mgr sid now updates pr).2.2
        = .error ("Session not found: " ++ sid) ∧
      handle_message_outcome (send_message mgr sid now updates pr).2.2
        = .error ⟨-32603, "Session not found: " ++ sid⟩) ∧
    (set_session_mode sessions mode sid = .error ("Session not found: " ++ sid) ∧
      handle_message_outcome (set_session_mode sessions mode sid)
        = .error ⟨-32603, "Session not found: " ++ sid⟩) ∧
    cancel sessions sid = .ok sessions ∧
    set_session_model sessions model sid = .ok sessions ∧
    (handle_session_destroy mgr (some sid)).1 = mgr ∧
    (handle_session_destroy mgr (some sid)).2.2 = .ok () ∧
    (sid ≠ "" →
      (handle_session_destroy mgr (some sid)).2.1 = [session_shutdown_event]) ∧
    (handle_session_abort mgr (some sid)).1 = mgr ∧
    (handle_session_abort mgr (some sid)).2.2 = .ok () ∧
    (sid ≠ "" →
      (handle_session_abort mgr (some sid)).2.1 = [abort_event]) := by
  intro h1 h2
  refine ⟨⟨?_, ?_⟩, ⟨?_, ?_⟩, ?_, ?_, ?_, ?_, ?_, ?_, ?_, ?_⟩
  · simp [send_message, h1]
  · simp [send_message, h1, handle_message_outcome]
  · simp [set_session_mode, h2]
  · simp [set_session_mode, h2, handle_message_outcome]
  · simp [cancel, h2]
  · rfl
  · by_cases hs : truthy (some sid) = true
    · simp [handle_session_destroy, hs, destroy_session, h1]
    · simp [handle_session_destroy, hs]
  · by_cases hs : truthy (some sid) = true
    · simp [handle_session_destroy, hs, destroy_session, h1]
    · simp [handle_session_destroy, hs]
  · intro hsid
    have hs : truthy (some sid) = true := by simp [truthy]; exact hsid
    simp [handle_session_destroy, hs, destroy_session, h1]
  · by_cases hs : truthy (some sid) = true
    · simp [handle_session_abort, hs, abort_session]
    · simp [handle_session_abort, hs]
  · by_cases hs : truthy (some sid) = true
    · simp [handle_session_abort, hs, abort_session]
    · simp [handle_session_abort, hs]
  · intro hsid
    have hs : truthy (some sid) = true := by simp [truthy]; exact hsid
    simp [handle_session_abort, hs, abort_session]

/-- Claim C3 witness: the amended statement applied to empty session maps
and the session id s1, including the shutdown and abort envelopes the
destroy and abort handlers still emit. -/
theorem C3_amended_unknown_session_witness :
    (send_message [] "s1" 0 [] (.ok "r")).2.2
      = .error ("Session not found: " ++ "s1") ∧
    (handle_session_destroy [] (some "s1")).2.1 = [session_shutdown_event] ∧
    (handle_session_abort [] (some "s1")).2.1 = [abort_event] :=
  ⟨((C3_amended_unknown_session [] [] "s1" "default" "opus" 0 [] (.ok "r"))
      rfl rfl).1.1,
   ((C3_amended_unknown_session [] [] "s1" "default" "opus" 0 [] (.ok "r"))
      rfl rfl).2.2.2.2.2.2.1 (by decide),
   ((C3_amended_unknown_session [] [] "s1" "default" "opus" 0 [] (.ok "r"))
      rfl rfl).2.2.2.2.2.2.2.2.2 (by decide)⟩

/-- Claim C10. A session.send whose params lack a sessionId (or carry an
empty one) fails with the ValueError "sessionId is required", and one whose
prompt is missing or empty fails with "prompt is required"; in both cases
the failure precedes any event emission, the manager state is untouched,
and _handle_message surfaces the error as JSON-RPC -32603. -/
theorem C10_send_param_validation (mgr : MgrState) (p : SendParams) (now : Nat)
    (updates : List BackendUpdate) (pr : Except String String) :
    (truthy p.sessionId = false →
      handle_session_send mgr p now updates pr
          = (mgr, [], .error "sessionId is required") ∧
      handle_message_outcome (handle_session_send mgr p now updates pr).2.2
          = .error ⟨-32603, "sessionId is required"⟩) ∧
    (truthy p.sessionId = true → p.prompt.getD "" = "" →
      handle_session_send mgr p now updates pr
          = (mgr, [], .error "prompt is required") ∧
      handle_message_outcome (handle_session_send mgr p now updates pr).2.2
          = .error ⟨-32603, "prompt is required"⟩) := by
  constructor
  · intro h
    constructor
    · simp [handle_session_send, h]
    · simp [handle_session_send, h, handle_message_outcome]
  · intro h1 h2
    have hc : truthy (some (p.prompt.getD "")) = false := by
      rw [h2]
      rfl
    constructor
    · simp [handle_session_send, h1, hc]
    · simp [handle_session_send, h1, hc, handle_message_outcome]

/-- Claim C10 witness: a request without sessionId and a request with an
empty prompt, both rejected before any event, at concrete inputs. -/
theorem C10_send_param_validation_witness :
    handle_session_send [] { sessionId := none, prompt := some "hi" } 0 [] (.ok "r")
        = ([], [], .error "sessionId is required") ∧
    handle_session_send [] { sessionId := some "s1", prompt := none } 0 [] (.ok "r")
        = ([], [], .error "prompt is required") :=
  ⟨((C10_send_param_validation [] { sessionId := none, prompt := some "hi" }
      0 [] (.ok "r")).1 rfl).1,
   ((C10_send_param_validation [] { sessionId := some "s1", prompt := none }
      0 [] (.ok "r")).2 rfl rfl).1⟩

/-- Claim C5. With a connected client that has no session, set_model stores
the model in the single pending slot without sending anything; the next
new_session succeeds, sends exactly one set_session_model request carrying
that model id right after the new_session request, and clears the slot; the
result is the same whether or not the backend accepts the request, since a
failure there is only logged. -/
theorem C5_pending_model (st : ClientState) (M sid : String) (ok : Bool) :
    st.connected = true → st.session_id = none →
    set_model st M = ({ st with pending_model := some M }, []) ∧
    new_session (set_model st M).1 sid ok
        = .ok ({ st with session_id := some sid, pending_model := none },
               [.newSession st.cwd, .setSessionModel M sid]) ∧
    List.filter BackendRequest.isSetSessionModel
        [BackendRequest.newSession st.cwd, .setSessionModel M sid]
        = [.setSessionModel M sid] ∧
    new_session (set_model st M).1 sid true
        = new_session (set_model st M).1 sid false := by
  intro hconn hsid
  have h1 : set_model st M = ({ st with pending_model := some M }, []) := by
    simp [set_model, hsid]
  refine ⟨h1, ?_, ?_, rfl⟩
  · rw [h1]
    simp [new_session, hconn]
  · simp [List.filter, BackendRequest.isSetSessionModel]

/-- Claim C5 witness: the pending-model flow at a fresh connected client. -/
theorem C5_pending_model_witness :
    new_session (set_model { connected := true } "sonnet").1 "s1" false
      = .ok ({ connected := true, session_id := some "s1", pending_model := none },
             [.newSession ".", .setSessionModel "sonnet" "s1"]) :=
  ((C5_pending_model { connected := true } "sonnet" "s1" false) rfl rfl).2.1

/-- Claim C9. Calling prompt on a connected client stub with no session does
not fail: it first creates a session (also applying a pending model when one
is stored) and then sends the prompt in that session, and it returns the
text buffer accumulated during the prompt, which equals the concatenation
of the emitted deltas. -/
theorem C9_prompt_creates_session (st : ClientState) (text sid : String)
    (ok : Bool) (chunks : List String) :
    st.connected = true → st.session_id = none →
    (st.pending_model = none →
      promptText st text sid ok chunks
        = .ok ({ st with
                   session_id := some sid,
                   text_buffer := (runChunksFrom "" chunks).1 },
               [.newSession st.cwd, .promptReq sid text],
               (runChunksFrom "" chunks).1)) ∧
    (∀ m, st.pending_model = some m →
      promptText st text sid ok chunks
        = .ok ({ st with
                   session_id := some sid,
                   pending_model := none,
                   text_buffer := (runChunksFrom "" chunks).1 },
               [.newSession st.cwd, .setSessionModel m sid, .promptReq sid text],
               (runChunksFrom "" chunks).1)) ∧
    (runChunksFrom "" chunks).1 = concatList (runChunksFrom "" chunks).2 := by
  intro hconn hsid
  refine ⟨?_, ?_, runChunksFrom_buffer_concat "" chunks⟩
  · intro hp
    simp [promptText, hconn, hsid, new_session, hp]
  · intro m hp
    simp [promptText, hconn, hsid, new_session, hp]

/-- Claim C9 witness: a prompt on a fresh connected client with a pending
model and two inbound chunks. -/
theorem C9_prompt_creates_session_witness :
    promptText { connected := true, pending_model := some "opus" }
        "hi" "s1" true ["He", "Hello"]
      = .ok ({ connected := true,
                 session_id := some "s1",
                 pending_model := none,
                 text_buffer := (runChunksFrom "" ["He", "Hello"]).1 },
             [.newSession ".", .setSessionModel "opus" "s1", .promptReq "s1" "hi"],
             (runChunksFrom "" ["He", "Hello"]).1) :=
  ((C9_prompt_creates_session { connected := true, pending_model := some "opus" }
    "hi" "s1" true ["He", "Hello"]) rfl rfl).2.1 "opus" rfl

theorem updateProxySession_cons (k : String) (v : ProxySession)
    (rest : MgrState) (sid : String) (f : ProxySession → ProxySession) :
    updateProxySession ((k, v) :: rest) sid f
      = (if k = sid then (k, f v) else (k, v)) :: updateProxySession rest sid f :=
  rfl

theorem lookup_updateProxySession (mgr : MgrState) (sid : String)
    (f : ProxySession → ProxySession) :
    List.lookup sid (updateProxySession mgr sid f)
      = (List.lookup sid mgr).map f := by
  induction mgr with
  | nil => rfl
  | cons p rest ih =>
    obtain ⟨k, v⟩ := p
    rw [updateProxySession_cons]
    by_cases h : k = sid
    · subst h
      rw [if_pos rfl]
      simp [List.lookup]
    · rw [if_neg h]
      have hne : (sid == k) = false := by
        simp only [beq_eq_false_iff_ne, ne_eq]
        exact fun hc => h hc.symm
      simpa [List.lookup, hne] using ih

theorem filter_backend_update_events (updates : List BackendUpdate) :
    List.filter isBackendEvent (updates.flatMap backend_update_events)
      = updates.flatMap backend_update_events := by
  induction updates with
  | nil => rfl
  | cons u us ih =>
    simp only [List.flatMap_cons, List.filter_append, ih]
    congr 1
    cases u <;> rfl

theorem run_session_command_log (sid : String) (st : MgrState × List CppEvent)
    (c : ProxyCommand) (s : ProxySession)
    (h : List.lookup sid st.1 = some s)
    (he : s.events = st.2.filter isBackendEvent) :
    ∃ s2, List.lookup sid (run_session_command sid st c).1 = some s2 ∧
      s2.events = ((run_session_command sid st c).2).filter isBackendEvent := by
  cases c with
  | send promptv updates res =>
    by_cases hsid : sid = ""
    · subst hsid
      refine ⟨s, ?_, ?_⟩ <;>
        simp [run_session_command, handle_session_send, truthy, h, he]
    · by_cases hp : promptv = ""
      · subst hp
        refine ⟨s, ?_, ?_⟩ <;>
          simp [run_session_command, handle_session_send, truthy, hsid, h, he]
      · refine ⟨{ s with
                  modified_at := 0,
                  events := s.events ++ updates.flatMap backend_update_events },
                ?_, ?_⟩ <;>
          cases res <;>
            simp [run_session_command, handle_session_send, truthy, hsid, hp,
              send_message, h, lookup_updateProxySession, he,
              List.filter_append, filter_backend_update_events,
              isBackendEvent, backend_event_types,
              user_message_event, assistant_turn_start_event,
              assistant_message_event, session_error_event]
  | destroy =>
    by_cases hsid : sid = ""
    · subst hsid
      refine ⟨s, ?_, ?_⟩ <;>
        simp [run_session_command, handle_session_destroy, truthy, h, he]
    · refine ⟨{ s with is_active := false }, ?_, ?_⟩ <;>
        simp [run_session_command, handle_session_destroy, truthy, hsid,
          destroy_session, h, lookup_updateProxySession, he, List.filter_append,
          isBackendEvent, backend_event_types, session_shutdown_event]
  | abort =>
    by_cases hsid : sid = ""
    · subst hsid
      refine ⟨s, ?_, ?_⟩ <;>
        simp [run_session_command, handle_session_abort, truthy, h, he]
    · refine ⟨s, ?_, ?_⟩ <;>
        simp [run_session_command, handle_session_abort, truthy, hsid,
          abort_session, h, he, List.filter_append,
          isBackendEvent, backend_event_types, abort_event]

theorem foldl_session_command_log (sid : String) (cmds : List ProxyCommand)
    (st : MgrState × List CppEvent) (s : ProxySession)
    (h : List.lookup sid st.1 = some s)
    (he : s.events = st.2.filter isBackendEvent) :
    ∃ s2,
      List.lookup sid (cmds.foldl (run_session_command sid) st).1 = some s2 ∧
      s2.events
        = ((cmds.foldl (run_session_command sid) st).2).filter isBackendEvent := by
  induction cmds generalizing st s with
  | nil => exact ⟨s, h, he⟩
  | cons c cs ih =>
    obtain ⟨s2, h2, he2⟩ := run_session_command_log sid st c s h he
    simpa [List.foldl_cons] using ih (run_session_command sid st c) s2 h2 he2

/-- Claim C1. The claim says the getMessages replay equals the full stream
of envelopes delivered to the event sink; but the server-level envelopes are
never appended to the session log. Concretely, after one session.send during
which the backend produced no updates, the sink has received four envelopes
(session.start, user.message, assistant.turn_start, assistant.message) while
the replay is empty. -/
theorem C1_counterexample :
    get_session_events (session_lifetime "s1" "/tmp" "sonnet"
        [.send "hi" [] (.ok "resp")]).1 "s1"
      ≠ (session_lifetime "s1" "/tmp" "sonnet" [.send "hi" [] (.ok "resp")]).2 := by
  intro h
  have hlen := congrArg List.length h
  have h0 : (get_session_events (session_lifetime "s1" "/tmp" "sonnet"
      [.send "hi" [] (.ok "resp")]).1 "s1").length = 0 := rfl
  have h4 : ((session_lifetime "s1" "/tmp" "sonnet"
      [.send "hi" [] (.ok "resp")]).2).length = 4 := rfl
  rw [h0, h4] at hlen
  exact absurd hlen (by decide)

/-- Claim C1, amended. Over any session lifetime (create, then any sequence
of send, destroy and abort commands), the event list returned by
session.getMessages equals the subsequence of the sink-delivered envelopes
whose types come from the backend translation handlers
(assistant.message_delta, assistant.reasoning_delta, tool.execution_start,
tool.execution_complete, assistant.turn_end, session.idle), element for
element and in the same order; the server-emitted envelopes (session.start,
user.message, assistant.turn_start, assistant.message, session.shutdown,
abort, session.error) are delivered to the sink but never recorded in the
log. -/
theorem C1_amended_log_is_backend_subsequence (sid cwd model : String)
    (cmds : List ProxyCommand) :
    get_session_events (session_lifetime sid cwd model cmds).1 sid
      = ((session_lifetime sid cwd model cmds).2).filter isBackendEvent := by
  obtain ⟨s2, h2, he2⟩ := foldl_session_command_log sid cmds
    ([(sid, { session_id := sid, working_directory := cwd, model := some model })],
     [session_start_event cwd model])
    { session_id := sid, working_directory := cwd, model := some model }
    (by simp [List.lookup]) rfl
  unfold session_lifetime
  rw [get_session_events, h2]
  exact he2

theorem toNat_ofNat_valid (n : Nat) (h : n < 55296) : (Char.ofNat n).toNat = n := by
  unfold Char.ofNat
  rw [dif_pos (Or.inl h)]
  rfl

theorem digit_char_toNat (d : Nat) (h : d < 10) :
    (Char.ofNat (48 + d)).toNat = 48 + d :=
  toNat_ofNat_valid _ (by omega)

theorem natDigits_zero (fuel : Nat) : natDigits fuel 0 = [] := by
  cases fuel <;> simp [natDigits]

theorem natDigits_all_digits (fuel n : Nat) :
    ∀ c ∈ natDigits fuel n, isDigitChar c = true := by
  induction fuel generalizing n with
  | zero => intro c hc; simp [natDigits] at hc
  | succ fuel ih =>
    intro c hc
    by_cases h : n = 0
    · simp [natDigits, h] at hc
    · rw [natDigits, if_neg h] at hc
      rcases List.mem_append.mp hc with h1 | h1
      · exact ih _ c h1
      · simp only [List.mem_singleton] at h1
        subst h1
        have ht := digit_char_toNat (n % 10) (Nat.mod_lt _ (by norm_num))
        simp [isDigitChar, ht]
        omega

theorem natDigits_head_ne_zero (fuel n : Nat) (h1 : 1 ≤ n) (h2 : n ≤ fuel) :
    ∃ d ds, natDigits fuel n = d :: ds ∧ d ≠ '0' := by
  induction fuel generalizing n with
  | zero => omega
  | succ fuel ih =>
    rw [natDigits, if_neg (by omega)]
    by_cases h : n < 10
    · rw [show n / 10 = 0 by omega, natDigits_zero]
      refine ⟨Char.ofNat (48 + n % 10), [], rfl, ?_⟩
      intro hc
      have hn := congrArg Char.toNat hc
      rw [digit_char_toNat (n % 10) (by omega)] at hn
      have h48 : Char.toNat '0' = 48 := rfl
      rw [h48] at hn
      omega
    · obtain ⟨d, ds, hds, hd⟩ := ih (n / 10) (by omega) (by omega)
      exact ⟨d, ds ++ [Char.ofNat (48 + n % 10)], by rw [hds]; rfl, hd⟩

theorem digitsVal_natDigits (fuel n a : Nat) (h : n ≤ fuel) :
    List.foldl (fun a c => a * 10 + (c.toNat - 48)) a (natDigits fuel n)
      = a * 10 ^ (natDigits fuel n).length + n := by
  induction fuel generalizing n a with
  | zero =>
    have h0 : n = 0 := by omega
    simp [natDigits, h0]
  | succ fuel ih =>
    by_cases h0 : n = 0
    · simp [natDigits, h0]
    · rw [natDigits, if_neg h0, List.foldl_append, List.length_append]
      simp only [List.foldl_cons, List.foldl_nil, List.length_singleton]
      rw [ih (n / 10) a (by omega)]
      rw [digit_char_toNat (n % 10) (by omega)]
      have e1 : 48 + n % 10 - 48 = n % 10 := by omega
      rw [e1, pow_succ, add_mul, mul_assoc, add_assoc]
      have e2 : n / 10 * 10 + n % 10 = n := by omega
      rw [e2]

theorem digitsVal_natToChars (n : Nat) : digitsVal (natToChars n) = n := by
  by_cases h : n = 0
  · simp [natToChars, h, digitsVal]
  · rw [natToChars, if_neg h]
    unfold digitsVal
    rw [digitsVal_natDigits (n + 1) n 0 (by omega)]
    simp

theorem natToChars_all_digits (n : Nat) :
    ∀ c ∈ natToChars n, isDigitChar c = true := by
  by_cases h : n = 0
  · intro c hc
    simp [natToChars, h] at hc
    subst hc
    decide
  · rw [natToChars, if_neg h]
    exact natDigits_all_digits (n + 1) n

theorem natToChars_ne_nil (n : Nat) : natToChars n ≠ [] := by
  by_cases h : n = 0
  · simp [natToChars, h]
  · rw [natToChars, if_neg h]
    cases' natDigits_head_ne_zero (n + 1) n (by omega) (by omega) with d hd
    obtain ⟨ds, hds, _⟩ := hd
    simp [hds]

theorem natToChars_no_leading_zero (n : Nat) :
    ¬ (1 < (natToChars n).length ∧ (natToChars n).headD '0' = '0') := by
  by_cases h : n = 0
  · simp [natToChars, h]
  · rw [natToChars, if_neg h]
    obtain ⟨d, ds, hds, hd⟩ := natDigits_head_ne_zero (n + 1) n (by omega) (by omega)
    rw [hds]
    rintro ⟨_, hh⟩
    exact hd hh

theorem takeWhile_dropWhile_all_append {α : Type} (p : α → Bool)
    (xs ys : List α) (hxs : ∀ c ∈ xs, p c = true)
    (hys : ∀ c, ys.head? = some c → p c = false) :
    (xs ++ ys).takeWhile p = xs ∧ (xs ++ ys).dropWhile p = ys := by
  induction xs with
  | nil =>
    cases ys with
    | nil => simp
    | cons y ys2 =>
      have hy := hys y rfl
      simp [List.takeWhile, List.dropWhile, hy]
  | cons x xs ih =>
    have hx := hxs x (by simp)
    obtain ⟨h1, h2⟩ := ih (fun c hc => hxs c (by simp [hc]))
    simp [List.takeWhile, List.dropWhile, hx, h1, h2]

theorem parseDigits_natToChars (n : Nat) (rest : List Char)
    (hrest : numSafe rest = true) :
    parseDigits (natToChars n ++ rest) = some (n, rest) := by
  have hhead : ∀ c, rest.head? = some c → isDigitChar c = false := by
    intro c hc
    cases rest with
    | nil => simp at hc
    | cons r rs =>
      simp at hc
      subst hc
      simp [numSafe] at hrest
      exact hrest.1
  obtain ⟨ht, hd⟩ := takeWhile_dropWhile_all_append isDigitChar (natToChars n)
    rest (natToChars_all_digits n) hhead
  unfold parseDigits
  simp only [ht, hd]
  rw [if_neg (by simp [List.isEmpty_iff, natToChars_ne_nil n]),
    if_neg (natToChars_no_leading_zero n)]
  cases hr : rest with
  | nil => simp [digitsVal_natToChars]
  | cons r rs =>
    subst hr
    simp [numSafe] at hrest
    show (if isNumberTailChar r = true then none
          else some (digitsVal (natToChars n), r :: rs)) = some (n, r :: rs)
    rw [if_neg (by simp [hrest.2])]
    simp [digitsVal_natToChars]

theorem digit_not_minus (c : Char) (h : isDigitChar c = true) : ¬ c = '-' := by
  intro hc
  subst hc
  simp [isDigitChar] at h

theorem parseNumber_cons (c : Char) (t : List Char) :
    parseNumber (c :: t)
      = if c = '-' then (parseDigits t).map fun p => (.int (-(p.1 : Int)), p.2)
        else (parseDigits (c :: t)).map fun p => (.int (p.1 : Int), p.2) := rfl

theorem parseNumber_intToChars (i : Int) (rest : List Char)
    (hrest : numSafe rest = true) :
    parseNumber (intToChars i ++ rest) = some (.int i, rest) := by
  cases i with
  | ofNat n =>
    have hne := natToChars_ne_nil n
    cases hn : natToChars n with
    | nil => exact absurd hn hne
    | cons d ds =>
      have hd : isDigitChar d = true := by
        apply natToChars_all_digits n
        simp [hn]
      show parseNumber (natToChars n ++ rest) = _
      rw [hn]
      show parseNumber (d :: (ds ++ rest)) = _
      rw [parseNumber_cons, if_neg (digit_not_minus d hd)]
      have hcons : d :: (ds ++ rest) = natToChars n ++ rest := by rw [hn]; rfl
      rw [hcons, parseDigits_natToChars n rest hrest]
      rfl
  | negSucc m =>
    show parseNumber ('-' :: (natToChars (m + 1) ++ rest)) = _
    rw [parseNumber_cons, if_pos rfl, parseDigits_natToChars (m + 1) rest hrest]
    show some (Json.int (-((m + 1 : Nat) : Int)), rest)
        = some (Json.int (Int.negSucc m), rest)
    have he : (-((m + 1 : Nat) : Int)) = Int.negSucc m := by
      rw [Int.negSucc_eq]
      push_cast
      ring
    rw [he]


theorem hexVal_hexDigitChar (d : Nat) (h : d < 16) :
    hexVal (hexDigitChar d) = some d := by
  interval_cases d <;> decide

theorem hex4_nibbles (n : Nat) (h : n < 65536) :
    hex4 (hexDigitChar (n / 4096 % 16)) (hexDigitChar (n / 256 % 16))
      (hexDigitChar (n / 16 % 16)) (hexDigitChar (n % 16)) = some n := by
  unfold hex4
  rw [hexVal_hexDigitChar _ (Nat.mod_lt _ (by norm_num)),
    hexVal_hexDigitChar _ (Nat.mod_lt _ (by norm_num)),
    hexVal_hexDigitChar _ (Nat.mod_lt _ (by norm_num)),
    hexVal_hexDigitChar _ (Nat.mod_lt _ (by norm_num))]
  show some _ = some n
  congr 1
  omega

theorem parseEscape_uEscape_bmp (n : Nat) (t : List Char) (hlt : n < 65536)
    (hs : ¬ (55296 ≤ n ∧ n < 57344)) :
    parseEscape ('u' :: hexDigitChar (n / 4096 % 16) :: hexDigitChar (n / 256 % 16)
        :: hexDigitChar (n / 16 % 16) :: hexDigitChar (n % 16) :: t)
      = some (Char.ofNat n, t) := by
  simp [parseEscape, hex4_nibbles n hlt]
  rw [if_neg (by omega), if_neg (by omega)]

theorem parseEscape_uEscape_highlow (A B : Nat) (t : List Char)
    (hA : 55296 ≤ A ∧ A < 56320) (hB : 56320 ≤ B ∧ B < 57344) :
    parseEscape ('u' :: hexDigitChar (A / 4096 % 16) :: hexDigitChar (A / 256 % 16)
      :: hexDigitChar (A / 16 % 16) :: hexDigitChar (A % 16)
      :: ('\\' :: 'u' :: hexDigitChar (B / 4096 % 16) :: hexDigitChar (B / 256 % 16)
          :: hexDigitChar (B / 16 % 16) :: hexDigitChar (B % 16) :: t))
      = some (Char.ofNat (65536 + (A - 55296) * 1024 + (B - 56320)), t) := by
  simp [parseEscape, hex4_nibbles A (by omega), hex4_nibbles B (by omega)]
  rw [if_pos hA, if_pos hB]

theorem parseStringBody_backslash (fuel : Nat) (r : List Char) (d : Char)
    (r2 : List Char) (h : parseEscape r = some (d, r2)) :
    parseStringBody (fuel + 1) ('\\' :: r)
      = (parseStringBody fuel r2).map fun p => (d :: p.1, p.2) := by
  simp [parseStringBody, h]

theorem parseStringBody_escapeChar (fuel : Nat) (c : Char) (t : List Char) :
    parseStringBody (fuel + 1) (escapeChar c ++ t)
      = (parseStringBody fuel t).map fun p => (c :: p.1, p.2) := by
  have hv : c.toNat < 55296 ∨ (57343 < c.toNat ∧ c.toNat < 1114112) := c.valid
  unfold escapeChar
  by_cases h1 : c = '"'
  · subst h1
    rw [if_pos rfl]
    rfl
  · rw [if_neg h1]
    by_cases h2 : c = '\\'
    · subst h2
      rw [if_pos rfl]
      rfl
    · rw [if_neg h2]
      by_cases h3 : 32 ≤ c.toNat ∧ c.toNat ≤ 126
      · rw [if_pos h3]
        show parseStringBody (fuel + 1) (c :: t) = _
        simp only [parseStringBody]
        rw [if_neg h1, if_neg h2, if_neg (by omega)]
      · rw [if_neg h3]
        by_cases h4 : c.toNat = 8
        · rw [if_pos h4]
          have hc : Char.ofNat 8 = c := by rw [← h4, Char.ofNat_toNat]
          show parseStringBody (fuel + 1) ('\\' :: ('b' :: t)) = _
          rw [parseStringBody_backslash fuel ('b' :: t) (Char.ofNat 8) t rfl, hc]
        · rw [if_neg h4]
          by_cases h5 : c.toNat = 9
          · rw [if_pos h5]
            have hc : Char.ofNat 9 = c := by rw [← h5, Char.ofNat_toNat]
            show parseStringBody (fuel + 1) ('\\' :: ('t' :: t)) = _
            rw [parseStringBody_backslash fuel ('t' :: t) (Char.ofNat 9) t rfl, hc]
          · rw [if_neg h5]
            by_cases h6 : c.toNat = 10
            · rw [if_pos h6]
              have hc : Char.ofNat 10 = c := by rw [← h6, Char.ofNat_toNat]
              show parseStringBody (fuel + 1) ('\\' :: ('n' :: t)) = _
              rw [parseStringBody_backslash fuel ('n' :: t) (Char.ofNat 10) t rfl, hc]
            · rw [if_neg h6]
              by_cases h7 : c.toNat = 12
              · rw [if_pos h7]
                have hc : Char.ofNat 12 = c := by rw [← h7, Char.ofNat_toNat]
                show parseStringBody (fuel + 1) ('\\' :: ('f' :: t)) = _
                rw [parseStringBody_backslash fuel ('f' :: t) (Char.ofNat 12) t rfl, hc]
              · rw [if_neg h7]
                by_cases h8 : c.toNat = 13
                · rw [if_pos h8]
                  have hc : Char.ofNat 13 = c := by rw [← h8, Char.ofNat_toNat]
                  show parseStringBody (fuel + 1) ('\\' :: ('r' :: t)) = _
                  rw [parseStringBody_backslash fuel ('r' :: t) (Char.ofNat 13) t rfl, hc]
                · rw [if_neg h8]
                  by_cases h9 : c.toNat < 65536
                  · rw [if_pos h9]
                    have hofn : Char.ofNat c.toNat = c := Char.ofNat_toNat c
                    show parseStringBody (fuel + 1)
                        ('\\' :: ('u' :: hexDigitChar (c.toNat / 4096 % 16)
                          :: hexDigitChar (c.toNat / 256 % 16)
                          :: hexDigitChar (c.toNat / 16 % 16)
                          :: hexDigitChar (c.toNat % 16) :: t)) = _
                    rw [parseStringBody_backslash fuel _ _ _
                      (parseEscape_uEscape_bmp c.toNat t h9
                        (by rcases hv with h | h <;> omega)), hofn]
                  · rw [if_neg h9]
                    have hAb : 55296 ≤ 55296 + (c.toNat - 65536) / 1024 ∧
                        55296 + (c.toNat - 65536) / 1024 < 56320 := by
                      rcases hv with h | h <;> omega
                    have hBb : 56320 ≤ 56320 + (c.toNat - 65536) % 1024 ∧
                        56320 + (c.toNat - 65536) % 1024 < 57344 := by
                      omega
                    have hsum : 65536 + ((55296 + (c.toNat - 65536) / 1024) - 55296) * 1024
                        + ((56320 + (c.toNat - 65536) % 1024) - 56320) = c.toNat := by
                      rcases hv with h | h <;> omega
                    generalize hA : 55296 + (c.toNat - 65536) / 1024 = A at hAb hsum
                    generalize hB : 56320 + (c.toNat - 65536) % 1024 = B at hBb hsum
                    show parseStringBody (fuel + 1)
                        ('\\' :: ('u' :: hexDigitChar (A / 4096 % 16)
                          :: hexDigitChar (A / 256 % 16)
                          :: hexDigitChar (A / 16 % 16)
                          :: hexDigitChar (A % 16)
                          :: ('\\' :: 'u' :: hexDigitChar (B / 4096 % 16)
                              :: hexDigitChar (B / 256 % 16)
                              :: hexDigitChar (B / 16 % 16)
                              :: hexDigitChar (B % 16) :: t))) = _
                    rw [parseStringBody_backslash fuel _ _ _
                      (parseEscape_uEscape_highlow A B t hAb hBb)]
                    rw [hsum, Char.ofNat_toNat]

theorem parseStringBody_escapeString (s : List Char) (t : List Char) (fuel : Nat)
    (hf : s.length + 1 ≤ fuel) :
    parseStringBody fuel (escapeString s ++ ('"' :: t)) = some (s, t) := by
  induction s generalizing fuel t with
  | nil =>
    cases fuel with
    | zero => omega
    | succ f => simp [escapeString, parseStringBody]
  | cons c cs ih =>
    cases fuel with
    | zero => simp at hf
    | succ f =>
      have he : escapeString (c :: cs) ++ ('"' :: t)
          = escapeChar c ++ (escapeString cs ++ ('"' :: t)) := by
        simp [escapeString, List.flatMap_cons, List.append_assoc]
      rw [he, parseStringBody_escapeChar f c _,
        ih t f (by simp only [List.length_cons] at hf; omega)]
      rfl

theorem escapeChar_ne_nil (c : Char) : escapeChar c ≠ [] := by
  simp only [escapeChar]
  split_ifs <;> simp [uEscape]

theorem length_le_escapeString (s : List Char) :
    s.length ≤ (escapeString s).length := by
  induction s with
  | nil => simp [escapeString]
  | cons c cs ih =>
    have h1 : 1 ≤ (escapeChar c).length :=
      List.length_pos.mpr (escapeChar_ne_nil c)
    simp only [escapeString, List.flatMap_cons, List.length_append,
      List.length_cons]
    simp only [escapeString] at ih
    omega

theorem hexDigitChar_ascii (d : Nat) (h : d < 16) : (hexDigitChar d).toNat < 128 := by
  interval_cases d <;> decide

theorem uEscape_ascii (n : Nat) : ∀ x ∈ uEscape n, x.toNat < 128 := by
  intro x hx
  simp only [uEscape, List.mem_cons, List.not_mem_nil, or_false] at hx
  rcases hx with h | h | h | h | h | h <;> subst h
  · decide
  · decide
  · exact hexDigitChar_ascii _ (Nat.mod_lt _ (by norm_num))
  · exact hexDigitChar_ascii _ (Nat.mod_lt _ (by norm_num))
  · exact hexDigitChar_ascii _ (Nat.mod_lt _ (by norm_num))
  · exact hexDigitChar_ascii _ (Nat.mod_lt _ (by norm_num))

theorem escapeChar_ascii (c : Char) : ∀ x ∈ escapeChar c, x.toNat < 128 := by
  intro x hx
  simp only [escapeChar] at hx
  split at hx
  · simp at hx; rcases hx with h | h <;> (subst h; decide)
  · split at hx
    · simp at hx
      subst hx
      decide
    · split at hx
      · rename_i h3
        simp at hx
        subst hx
        omega
      · split at hx
        · simp at hx; rcases hx with h | h <;> (subst h; decide)
        · split at hx
          · simp at hx; rcases hx with h | h <;> (subst h; decide)
          · split at hx
            · simp at hx; rcases hx with h | h <;> (subst h; decide)
            · split at hx
              · simp at hx; rcases hx with h | h <;> (subst h; decide)
              · split at hx
                · simp at hx; rcases hx with h | h <;> (subst h; decide)
                · split at hx
                  · exact uEscape_ascii _ x hx
                  · rcases List.mem_append.mp hx with h | h
                    · exact uEscape_ascii _ x h
                    · exact uEscape_ascii _ x h

theorem natToChars_ascii (n : Nat) : ∀ x ∈ natToChars n, x.toNat < 128 := by
  intro x hx
  have hd := natToChars_all_digits n x hx
  simp [isDigitChar] at hd
  omega

theorem intToChars_ascii (i : Int) : ∀ x ∈ intToChars i, x.toNat < 128 := by
  intro x hx
  cases i with
  | ofNat n => exact natToChars_ascii n x hx
  | negSucc m =>
    simp only [intToChars, List.mem_cons] at hx
    rcases hx with h | h
    · subst h; decide
    · exact natToChars_ascii (m + 1) x h

theorem quoteString_ascii (s : String) : ∀ x ∈ quoteString s, x.toNat < 128 := by
  intro x hx
  simp only [quoteString, List.mem_cons, List.mem_append,
    List.mem_singleton, List.not_mem_nil, or_false] at hx
  rcases hx with h | h | h
  · subst h; decide
  · simp only [escapeString, List.mem_flatMap] at h
    obtain ⟨c, _, hc⟩ := h
    exact escapeChar_ascii c x hc
  · subst h; decide

mutual

theorem dumps_ascii (v : Json) : ∀ x ∈ dumps v, x.toNat < 128 := by
  intro x hx
  cases v with
  | null =>
    have hall : ∀ y ∈ (['n', 'u', 'l', 'l'] : List Char), y.toNat < 128 := by decide
    exact hall x hx
  | bool b =>
    cases b with
    | true =>
      have hall : ∀ y ∈ (['t', 'r', 'u', 'e'] : List Char), y.toNat < 128 := by
        decide
      exact hall x hx
    | false =>
      have hall : ∀ y ∈ (['f', 'a', 'l', 's', 'e'] : List Char), y.toNat < 128 := by
        decide
      exact hall x hx
  | int n => exact intToChars_ascii n x hx
  | str s => exact quoteString_ascii s x hx
  | arr xs =>
    simp only [dumps, List.mem_cons, List.mem_append, List.mem_singleton,
      List.not_mem_nil, or_false] at hx
    rcases hx with h | h | h
    · subst h; decide
    · exact dumpsList_ascii xs x h
    · subst h; decide
  | obj fs =>
    simp only [dumps, List.mem_cons, List.mem_append, List.mem_singleton,
      List.not_mem_nil, or_false] at hx
    rcases hx with h | h | h
    · subst h; decide
    · exact dumpsFields_ascii fs x h
    · subst h; decide

theorem dumpsList_ascii (xs : List Json) : ∀ x ∈ dumpsList xs, x.toNat < 128 := by
  intro x hx
  match xs with
  | [] => simp [dumpsList] at hx
  | [v] => exact dumps_ascii v x hx
  | v :: w :: rest =>
    simp only [dumpsList, List.mem_append, List.mem_cons] at hx
    rcases hx with h | h | h
    · exact dumps_ascii v x h
    · subst h; decide
    · exact dumpsList_ascii (w :: rest) x h

theorem dumpsFields_ascii (fs : List (String × Json)) :
    ∀ x ∈ dumpsFields fs, x.toNat < 128 := by
  intro x hx
  match fs with
  | [] => simp [dumpsFields] at hx
  | [(k, v)] =>
    simp only [dumpsFields, List.mem_append, List.mem_cons] at hx
    rcases hx with h | h | h
    · exact quoteString_ascii k x h
    · subst h; decide
    · exact dumps_ascii v x h
  | (k, v) :: f :: rest =>
    simp only [dumpsFields, List.mem_append, List.mem_cons] at hx
    rcases hx with (h | h | h) | h | h
    · exact quoteString_ascii k x h
    · subst h; decide
    · exact dumps_ascii v x h
    · subst h; decide
    · exact dumpsFields_ascii (f :: rest) x h

end

theorem utf8Length_ascii (s : List Char) (h : ∀ x ∈ s, x.toNat < 128) :
    utf8Length s = s.length := by
  induction s with
  | nil => rfl
  | cons c cs ih =>
    have hc := h c (by simp)
    unfold utf8Length at *
    simp only [List.map_cons, List.sum_cons, List.length_cons]
    rw [ih (fun x hx => h x (by simp [hx]))]
    simp [utf8Width, hc]
    omega

theorem dumpsList_eq (x : Json) (xs : List Json) :
    dumpsList (x :: xs) ++ [']'] = dumps x ++ arrayTailEnc xs := by
  induction xs generalizing x with
  | nil => rfl
  | cons y ys ih =>
    show (dumps x ++ ',' :: dumpsList (y :: ys)) ++ [']'] = _
    rw [List.append_assoc]
    show dumps x ++ (',' :: (dumpsList (y :: ys) ++ [']'])) = _
    rw [ih y]
    rfl

theorem dumpsFields_eq (k : String) (v : Json) (fs : List (String × Json)) :
    dumpsFields ((k, v) :: fs) ++ ['\x7d']
      = quoteString k ++ ':' :: (dumps v ++ objTailEnc fs) := by
  induction fs generalizing k v with
  | nil =>
    show (quoteString k ++ ':' :: dumps v) ++ ['\x7d'] = _
    rw [List.append_assoc]
    rfl
  | cons f ys ih =>
    obtain ⟨k2, v2⟩ := f
    show (quoteString k ++ ':' :: dumps v ++ ',' :: dumpsFields ((k2, v2) :: ys))
        ++ ['\x7d'] = _
    rw [List.append_assoc]
    simp only [List.cons_append]
    rw [List.append_assoc]
    simp only [List.cons_append]
    rw [ih k2 v2]
    rfl

theorem numSafe_arrayTailEnc (xs : List Json) (rest : List Char) :
    numSafe (arrayTailEnc xs ++ rest) = true := by
  cases xs <;> rfl

theorem numSafe_objTailEnc (fs : List (String × Json)) (rest : List Char) :
    numSafe (objTailEnc fs ++ rest) = true := by
  cases fs with
  | nil => rfl
  | cons f fs2 => obtain ⟨k, v⟩ := f; rfl

theorem intToChars_head (i : Int) :
    ∃ c cs, intToChars i = c :: cs ∧ (c = '-' ∨ isDigitChar c = true) := by
  cases i with
  | ofNat n =>
    cases hn : natToChars n with
    | nil => exact absurd hn (natToChars_ne_nil n)
    | cons d ds =>
      refine ⟨d, ds, ?_, Or.inr (natToChars_all_digits n d (by simp [hn]))⟩
      show natToChars n = d :: ds
      exact hn
  | negSucc m => exact ⟨'-', natToChars (m + 1), rfl, Or.inl rfl⟩

theorem num_head_not_special (c : Char) (h : c = '-' ∨ isDigitChar c = true) :
    c ≠ 'n' ∧ c ≠ 't' ∧ c ≠ 'f' ∧ c ≠ '"' ∧ c ≠ '[' ∧ c ≠ '\x7b' := by
  rcases h with h | h
  · subst h
    refine ⟨by decide, by decide, by decide, by decide, by decide, by decide⟩
  · refine ⟨?_, ?_, ?_, ?_, ?_, ?_⟩ <;>
      (intro hc; subst hc; revert h; decide)

theorem dumps_head (v : Json) :
    ∃ c cs, dumps v = c :: cs ∧ c ≠ ']' := by
  cases v with
  | null => exact ⟨'n', _, rfl, by decide⟩
  | bool b =>
    cases b with
    | true => exact ⟨'t', _, rfl, by decide⟩
    | false => exact ⟨'f', _, rfl, by decide⟩
  | int n =>
    obtain ⟨c, cs, hcs, hc⟩ := intToChars_head n
    refine ⟨c, cs, hcs, ?_⟩
    rcases hc with h | h
    · subst h; decide
    · intro hc2; subst hc2; revert h; decide
  | str s => exact ⟨'"', _, rfl, by decide⟩
  | arr xs => exact ⟨'[', _, rfl, by decide⟩
  | obj fs => exact ⟨'\x7b', _, rfl, by decide⟩

theorem jsize_pos (v : Json) : 1 ≤ jsize v := by
  cases v <;> simp [jsize]

theorem jsizeList_pos (xs : List Json) : 1 ≤ jsizeList xs := by
  cases xs <;> simp [jsizeList] <;> omega

theorem jsizeFields_pos (fs : List (String × Json)) : 1 ≤ jsizeFields fs := by
  cases fs <;> simp [jsizeFields] <;> omega

mutual

theorem jsize_le (v : Json) : jsize v + 1 ≤ 2 * (dumps v).length := by
  cases v with
  | null => decide
  | bool b => cases b <;> decide
  | int n =>
    obtain ⟨c, cs, hcs, _⟩ := intToChars_head n
    have h1 : (dumps (Json.int n)).length = cs.length + 1 := by
      show (intToChars n).length = _
      rw [hcs]; rfl
    show 1 + 1 ≤ 2 * (dumps (Json.int n)).length
    omega
  | str s =>
    have h1 : (dumps (Json.str s)).length = (escapeString s.data).length + 2 := by
      show (quoteString s).length = _
      simp [quoteString]
    show 1 + 1 ≤ 2 * (dumps (Json.str s)).length
    omega
  | arr xs =>
    cases xs with
    | nil => decide
    | cons x xs2 =>
      have h1 : (dumpsList (x :: xs2)).length + 1
          = (dumps x).length + (arrayTailEnc xs2).length := by
        have h := congrArg List.length (dumpsList_eq x xs2)
        simpa using h
      have h2 : (dumps (Json.arr (x :: xs2))).length
          = 1 + (dumpsList (x :: xs2)).length + 1 := by
        show ('[' :: (dumpsList (x :: xs2) ++ [']'])).length = _
        simp; omega
      have hx := jsize_le x
      have hxs := jsizeList_le xs2
      show 1 + (1 + jsize x + jsizeList xs2) + 1
          ≤ 2 * (dumps (Json.arr (x :: xs2))).length
      omega
  | obj fs =>
    cases fs with
    | nil => decide
    | cons f fs2 =>
      obtain ⟨k, v⟩ := f
      have h1 : (dumpsFields ((k, v) :: fs2)).length + 1
          = (quoteString k).length + 1 + ((dumps v).length + (objTailEnc fs2).length) := by
        have h := congrArg List.length (dumpsFields_eq k v fs2)
        simp at h
        omega
      have h2 : (dumps (Json.obj ((k, v) :: fs2))).length
          = 1 + (dumpsFields ((k, v) :: fs2)).length + 1 := by
        show ('\x7b' :: (dumpsFields ((k, v) :: fs2) ++ ['\x7d'])).length = _
        simp; omega
      have hv := jsize_le v
      have hfs := jsizeFields_le fs2
      show 1 + (1 + jsize v + jsizeFields fs2) + 1
          ≤ 2 * (dumps (Json.obj ((k, v) :: fs2))).length
      omega

theorem jsizeList_le (xs : List Json) : jsizeList xs ≤ 2 * (arrayTailEnc xs).length := by
  cases xs with
  | nil => decide
  | cons v vs =>
    have h1 : (arrayTailEnc (v :: vs)).length
        = 1 + ((dumps v).length + (arrayTailEnc vs).length) := by
      show (',' :: (dumps v ++ arrayTailEnc vs)).length = _
      simp; omega
    have hv := jsize_le v
    have hvs := jsizeList_le vs
    show 1 + jsize v + jsizeList vs ≤ 2 * (arrayTailEnc (v :: vs)).length
    omega

theorem jsizeFields_le (fs : List (String × Json)) :
    jsizeFields fs ≤ 2 * (objTailEnc fs).length := by
  cases fs with
  | nil => decide
  | cons f fs2 =>
    obtain ⟨k, v⟩ := f
    have h1 : (objTailEnc ((k, v) :: fs2)).length
        = 1 + ((quoteString k).length + (1 + ((dumps v).length + (objTailEnc fs2).length))) := by
      show (',' :: (quoteString k ++ ':' :: (dumps v ++ objTailEnc fs2))).length = _
      simp; omega
    have hv := jsize_le v
    have hfs := jsizeFields_le fs2
    show 1 + jsize v + jsizeFields fs2 ≤ 2 * (objTailEnc ((k, v) :: fs2)).length
    omega

end

theorem parseValue_succ_num (f : Nat) (c : Char) (rest : List Char)
    (h1 : c ≠ 'n') (h2 : c ≠ 't') (h3 : c ≠ 'f') (h4 : c ≠ '"')
    (h5 : c ≠ '[') (h6 : c ≠ '\x7b') :
    parseValue (f + 1) (c :: rest) = parseNumber (c :: rest) := by
  simp only [parseValue]
  rw [if_neg h1, if_neg h2, if_neg h3, if_neg h4, if_neg h5, if_neg h6]

theorem parseValue_succ_arr (f : Nat) (c2 : Char) (rest2 : List Char)
    (h : c2 ≠ ']') :
    parseValue (f + 1) ('[' :: (c2 :: rest2))
      = (parseValue f (c2 :: rest2)).bind fun p =>
          (parseArrayTail f p.2).map fun q => (Json.arr (p.1 :: q.1), q.2) := by
  have h0 : parseValue (f + 1) ('[' :: (c2 :: rest2))
      = if c2 = ']' then some (Json.arr [], rest2)
        else
          match parseValue f (c2 :: rest2) with
          | none => none
          | some (v, r1) =>
            match parseArrayTail f r1 with
            | none => none
            | some (vs, r2) => some (Json.arr (v :: vs), r2) := rfl
  rw [h0, if_neg h]
  cases parseValue f (c2 :: rest2) with
  | none => rfl
  | some p =>
    obtain ⟨v, r1⟩ := p
    show (match parseArrayTail f r1 with
      | none => none
      | some (vs, r2) => some (Json.arr (v :: vs), r2))
      = (parseArrayTail f r1).map fun q => (Json.arr (v :: q.1), q.2)
    cases parseArrayTail f r1 with
    | none => rfl
    | some q => obtain ⟨vs, r2⟩ := q; rfl

theorem parseValue_succ_obj_key (f : Nat) (rest2 kd r2 : List Char)
    (hps : parseStringBody rest2.length rest2 = some (kd, ':' :: r2)) :
    parseValue (f + 1) ('\x7b' :: ('"' :: rest2))
      = (parseValue f r2).bind fun q =>
          (parseObjTail f q.2).map fun w =>
            (Json.obj ((String.mk kd, q.1) :: w.1), w.2) := by
  have h0 : parseValue (f + 1) ('\x7b' :: ('"' :: rest2))
      = match parseStringBody rest2.length rest2 with
        | none => none
        | some (k, r1) =>
          match r1 with
          | ':' :: r2 =>
            match parseValue f r2 with
            | none => none
            | some (v, r3) =>
              match parseObjTail f r3 with
              | none => none
              | some (fs, r4) => some (Json.obj ((String.mk k, v) :: fs), r4)
          | _ => none := rfl
  rw [h0, hps]
  show (match parseValue f r2 with
    | none => none
    | some (v, r3) =>
      match parseObjTail f r3 with
      | none => none
      | some (fs, r4) => some (Json.obj ((String.mk kd, v) :: fs), r4)) = _
  cases parseValue f r2 with
  | none => rfl
  | some q =>
    obtain ⟨v, r3⟩ := q
    show (match parseObjTail f r3 with
      | none => none
      | some (fs, r4) => some (Json.obj ((String.mk kd, v) :: fs), r4))
      = (parseObjTail f r3).map fun w => (Json.obj ((String.mk kd, v) :: w.1), w.2)
    cases parseObjTail f r3 with
    | none => rfl
    | some w => obtain ⟨fs, r4⟩ := w; rfl

theorem parseArrayTail_succ_comma (f : Nat) (rest : List Char) :
    parseArrayTail (f + 1) (',' :: rest)
      = (parseValue f rest).bind fun p =>
          (parseArrayTail f p.2).map fun q => (p.1 :: q.1, q.2) := by
  have h0 : parseArrayTail (f + 1) (',' :: rest)
      = match parseValue f rest with
        | none => none
        | some (v, r1) =>
          match parseArrayTail f r1 with
          | none => none
          | some (vs, r2) => some (v :: vs, r2) := rfl
  rw [h0]
  cases parseValue f rest with
  | none => rfl
  | some p =>
    obtain ⟨v, r1⟩ := p
    show (match parseArrayTail f r1 with
      | none => none
      | some (vs, r2) => some (v :: vs, r2))
      = (parseArrayTail f r1).map fun q => (v :: q.1, q.2)
    cases parseArrayTail f r1 with
    | none => rfl
    | some q => obtain ⟨vs, r2⟩ := q; rfl

theorem parseObjTail_succ_comma (f : Nat) (rest2 kd r2 : List Char)
    (hps : parseStringBody rest2.length rest2 = some (kd, ':' :: r2)) :
    parseObjTail (f + 1) (',' :: ('"' :: rest2))
      = (parseValue f r2).bind fun q =>
          (parseObjTail f q.2).map fun w => ((String.mk kd, q.1) :: w.1, w.2) := by
  have h0 : parseObjTail (f + 1) (',' :: ('"' :: rest2))
      = match parseStringBody rest2.length rest2 with
        | none => none
        | some (k, r1) =>
          match r1 with
          | ':' :: r2 =>
            match parseValue f r2 with
            | none => none
            | some (v, r3) =>
              match parseObjTail f r3 with
              | none => none
              | some (fs, r4) => some ((String.mk k, v) :: fs, r4)
          | _ => none := rfl
  rw [h0, hps]
  show (match parseValue f r2 with
    | none => none
    | some (v, r3) =>
      match parseObjTail f r3 with
      | none => none
      | some (fs, r4) => some ((String.mk kd, v) :: fs, r4)) = _
  cases parseValue f r2 with
  | none => rfl
  | some q =>
    obtain ⟨v, r3⟩ := q
    show (match parseObjTail f r3 with
      | none => none
      | some (fs, r4) => some ((String.mk kd, v) :: fs, r4))
      = (parseObjTail f r3).map fun w => ((String.mk kd, v) :: w.1, w.2)
    cases parseObjTail f r3 with
    | none => rfl
    | some w => obtain ⟨fs, r4⟩ := w; rfl

theorem dumps_roundtrip_fuel (fuel : Nat) :
    (∀ v rest, jsize v ≤ fuel → numSafe rest = true →
      parseValue fuel (dumps v ++ rest) = some (v, rest)) ∧
    (∀ xs rest, jsizeList xs ≤ fuel → numSafe rest = true →
      parseArrayTail fuel (arrayTailEnc xs ++ rest) = some (xs, rest)) ∧
    (∀ fs rest, jsizeFields fs ≤ fuel → numSafe rest = true →
      parseObjTail fuel (objTailEnc fs ++ rest) = some (fs, rest)) := by
  induction fuel with
  | zero =>
    refine ⟨fun v rest hv _ => absurd hv ?_,
            fun xs rest hx _ => absurd hx ?_,
            fun fs rest hf _ => absurd hf ?_⟩
    · have := jsize_pos v; omega
    · have := jsizeList_pos xs; omega
    · have := jsizeFields_pos fs; omega
  | succ f ih =>
    obtain ⟨ihv, iha, iho⟩ := ih
    refine ⟨?_, ?_, ?_⟩
    · intro v rest hv hrest
      cases v with
      | null => rfl
      | bool b => cases b <;> rfl
      | int n =>
        obtain ⟨c, cs, hcs, hc⟩ := intToChars_head n
        obtain ⟨hn1, hn2, hn3, hn4, hn5, hn6⟩ := num_head_not_special c hc
        have hx2 : dumps (Json.int n) ++ rest = c :: (cs ++ rest) := by
          show intToChars n ++ rest = _
          rw [hcs]; rfl
        have hback : c :: (cs ++ rest) = intToChars n ++ rest := by
          rw [hcs]; rfl
        rw [hx2, parseValue_succ_num f c _ hn1 hn2 hn3 hn4 hn5 hn6, hback,
          parseNumber_intToChars n rest hrest]
      | str s =>
        obtain ⟨sd⟩ := s
        have hsplit : dumps (Json.str ⟨sd⟩) ++ rest
            = '"' :: (escapeString sd ++ ('"' :: rest)) := by
          show quoteString ⟨sd⟩ ++ rest = _
          simp [quoteString, List.append_assoc]
        rw [hsplit]
        have h0 : parseValue (f + 1) ('"' :: (escapeString sd ++ ('"' :: rest)))
            = (parseStringBody (escapeString sd ++ ('"' :: rest)).length
                (escapeString sd ++ ('"' :: rest))).map
                fun p => (Json.str (String.mk p.1), p.2) := rfl
        rw [h0, parseStringBody_escapeString sd rest
          ((escapeString sd ++ ('"' :: rest)).length)
          (by
            have := length_le_escapeString sd
            simp only [List.length_append, List.length_cons]
            omega)]
        rfl
      | arr xs =>
        cases xs with
        | nil => rfl
        | cons x xs2 =>
          have hx : jsize x ≤ f := by
            have p1 := jsizeList_pos xs2
            simp only [jsize, jsizeList] at hv
            omega
          have hxs : jsizeList xs2 ≤ f := by
            have p1 := jsize_pos x
            simp only [jsize, jsizeList] at hv
            omega
          obtain ⟨c2, cs2, hc2, hne⟩ := dumps_head x
          have hsplit : dumps (Json.arr (x :: xs2)) ++ rest
              = '[' :: (c2 :: (cs2 ++ (arrayTailEnc xs2 ++ rest))) := by
            calc ('[' :: (dumpsList (x :: xs2) ++ [']'])) ++ rest
                = '[' :: ((dumpsList (x :: xs2) ++ [']']) ++ rest) := rfl
              _ = '[' :: ((dumps x ++ arrayTailEnc xs2) ++ rest) := by
                  rw [dumpsList_eq]
              _ = '[' :: (c2 :: (cs2 ++ (arrayTailEnc xs2 ++ rest))) := by
                  rw [hc2]; simp [List.append_assoc]
          have hback : c2 :: (cs2 ++ (arrayTailEnc xs2 ++ rest))
              = dumps x ++ (arrayTailEnc xs2 ++ rest) := by
            rw [hc2]; rfl
          rw [hsplit, parseValue_succ_arr f c2 _ hne, hback,
            ihv x _ hx (numSafe_arrayTailEnc xs2 rest)]
          show ((parseArrayTail f (arrayTailEnc xs2 ++ rest)).map
              fun q => (Json.arr (x :: q.1), q.2)) = _
          rw [iha xs2 rest hxs hrest]
          rfl
      | obj fs =>
        cases fs with
        | nil => rfl
        | cons f0 fs2 =>
          obtain ⟨k, v⟩ := f0
          obtain ⟨kd⟩ := k
          have hjv : jsize v ≤ f := by
            have p1 := jsizeFields_pos fs2
            simp only [jsize, jsizeFields] at hv
            omega
          have hjf : jsizeFields fs2 ≤ f := by
            have p1 := jsize_pos v
            simp only [jsize, jsizeFields] at hv
            omega
          have hsplit : dumps (Json.obj ((⟨kd⟩, v) :: fs2)) ++ rest
              = '\x7b' :: ('"' :: (escapeString kd
                  ++ ('"' :: (':' :: (dumps v ++ (objTailEnc fs2 ++ rest)))))) := by
            calc ('\x7b' :: (dumpsFields ((⟨kd⟩, v) :: fs2) ++ ['\x7d'])) ++ rest
                = '\x7b' :: ((dumpsFields ((⟨kd⟩, v) :: fs2) ++ ['\x7d']) ++ rest) := rfl
              _ = '\x7b' :: ((quoteString ⟨kd⟩
                    ++ ':' :: (dumps v ++ objTailEnc fs2)) ++ rest) := by
                  rw [dumpsFields_eq]
              _ = _ := by simp [quoteString, List.append_assoc]
          have hkey : parseStringBody (escapeString kd
                ++ ('"' :: (':' :: (dumps v ++ (objTailEnc fs2 ++ rest))))).length
                (escapeString kd ++ ('"' :: (':' :: (dumps v ++ (objTailEnc fs2 ++ rest)))))
              = some (kd, ':' :: (dumps v ++ (objTailEnc fs2 ++ rest))) := by
            apply parseStringBody_escapeString
            have := length_le_escapeString kd
            simp only [List.length_append, List.length_cons]
            omega
          rw [hsplit, parseValue_succ_obj_key f _ kd _ hkey,
            ihv v _ hjv (numSafe_objTailEnc fs2 rest)]
          show ((parseObjTail f (objTailEnc fs2 ++ rest)).map
              fun w => (Json.obj ((String.mk kd, v) :: w.1), w.2)) = _
          rw [iho fs2 rest hjf hrest]
          rfl
    · intro xs rest hx hrest
      cases xs with
      | nil => rfl
      | cons v vs =>
        have hjv : jsize v ≤ f := by
          have p1 := jsizeList_pos vs
          simp only [jsizeList] at hx
          omega
        have hjs : jsizeList vs ≤ f := by
          have p1 := jsize_pos v
          simp only [jsizeList] at hx
          omega
        have hsplit : arrayTailEnc (v :: vs) ++ rest
            = ',' :: (dumps v ++ (arrayTailEnc vs ++ rest)) := by
          show (',' :: (dumps v ++ arrayTailEnc vs)) ++ rest = _
          simp [List.append_assoc]
        rw [hsplit, parseArrayTail_succ_comma,
          ihv v _ hjv (numSafe_arrayTailEnc vs rest)]
        show ((parseArrayTail f (arrayTailEnc vs ++ rest)).map
            fun q => (v :: q.1, q.2)) = _
        rw [iha vs rest hjs hrest]
        rfl
    · intro fs rest hf2 hrest
      cases fs with
      | nil => rfl
      | cons f0 fs2 =>
        obtain ⟨k, v⟩ := f0
        obtain ⟨kd⟩ := k
        have hjv : jsize v ≤ f := by
          have p1 := jsizeFields_pos fs2
          simp only [jsizeFields] at hf2
          omega
        have hjf : jsizeFields fs2 ≤ f := by
          have p1 := jsize_pos v
          simp only [jsizeFields] at hf2
          omega
        have hsplit : objTailEnc ((⟨kd⟩, v) :: fs2) ++ rest
            = ',' :: ('"' :: (escapeString kd
                ++ ('"' :: (':' :: (dumps v ++ (objTailEnc fs2 ++ rest)))))) := by
          show (',' :: (quoteString ⟨kd⟩
              ++ ':' :: (dumps v ++ objTailEnc fs2))) ++ rest = _
          simp [quoteString, List.append_assoc]
        have hkey : parseStringBody (escapeString kd
              ++ ('"' :: (':' :: (dumps v ++ (objTailEnc fs2 ++ rest))))).length
              (escapeString kd ++ ('"' :: (':' :: (dumps v ++ (objTailEnc fs2 ++ rest)))))
            = some (kd, ':' :: (dumps v ++ (objTailEnc fs2 ++ rest))) := by
          apply parseStringBody_escapeString
          have := length_le_escapeString kd
          simp only [List.length_append, List.length_cons]
          omega
        rw [hsplit, parseObjTail_succ_comma f _ kd _ hkey,
          ihv v _ hjv (numSafe_objTailEnc fs2 rest)]
        show ((parseObjTail f (objTailEnc fs2 ++ rest)).map
            fun w => ((String.mk kd, v) :: w.1, w.2)) = _
        rw [iho fs2 rest hjf hrest]
        rfl

theorem loads_dumps (v : Json) : loads (dumps v) = some v := by
  have hsz : jsize v ≤ 2 * (dumps v).length + 1 := by
    have := jsize_le v
    omega
  have h := (dumps_roundtrip_fuel (2 * (dumps v).length + 1)).1 v [] hsz rfl
  rw [List.append_nil] at h
  simp only [loads]
  rw [h]

theorem readLine_append (A B : List Char) (h : ∀ c ∈ A, c ≠ '\n') :
    readLine (A ++ '\n' :: B) = (A ++ ['\n'], B) := by
  induction A with
  | nil => simp [readLine]
  | cons a A2 ih =>
    have ha : a ≠ '\n' := h a (by simp)
    show readLine (a :: (A2 ++ '\n' :: B)) = _
    simp only [readLine]
    rw [if_neg ha, ih fun c hc => h c (by simp [hc])]
    simp

theorem digit_not_pyspace (c : Char) (h : isDigitChar c = true) :
    isPySpace c = false := by
  simp only [isDigitChar, Bool.and_eq_true, decide_eq_true_eq] at h
  simp only [isPySpace]
  simp only [Bool.or_eq_false_iff, decide_eq_false_iff_not]
  omega

theorem digit_ne_newline (c : Char) (h : isDigitChar c = true) : c ≠ '\n' := by
  intro hc
  subst hc
  revert h
  decide

theorem digit_ne_colon_bne (c : Char) (h : isDigitChar c = true) :
    (c != ':') = true := by
  simp only [bne_iff_ne, ne_eq]
  intro hc
  subst hc
  revert h
  decide

theorem dropWhile_all_true (f : Char → Bool) (A B : List Char)
    (h : ∀ c ∈ A, f c = true) :
    (A ++ B).dropWhile f = B.dropWhile f := by
  induction A with
  | nil => rfl
  | cons a A2 ih =>
    show List.dropWhile f (a :: (A2 ++ B)) = _
    rw [List.dropWhile_cons, if_pos (h a (by simp)), ih fun c hc => h c (by simp [hc])]

theorem takeWhile_all_true (f : Char → Bool) (A : List Char)
    (h : ∀ c ∈ A, f c = true) : A.takeWhile f = A := by
  induction A with
  | nil => rfl
  | cons a A2 ih =>
    rw [List.takeWhile_cons, if_pos (h a (by simp)),
      ih fun c hc => h c (by simp [hc])]

theorem dropWhile_head_false (f : Char → Bool) (a : Char) (A : List Char)
    (h : f a = false) : List.dropWhile f (a :: A) = a :: A := by
  rw [List.dropWhile_cons, if_neg (by simp [h])]

theorem stripChars_header (digits : List Char) (e : Char) (es : List Char)
    (hrev : digits.reverse = e :: es) (he : isPySpace e = false) :
    stripChars ("Content-Length: ".data ++ (digits ++ ['\r', '\n']))
      = "Content-Length: ".data ++ digits := by
  unfold stripChars
  have h1 : List.dropWhile isPySpace
      ("Content-Length: ".data ++ (digits ++ ['\r', '\n']))
      = "Content-Length: ".data ++ (digits ++ ['\r', '\n']) := by
    show List.dropWhile isPySpace ('C' :: _) = _
    exact dropWhile_head_false isPySpace 'C' _ (by decide)
  rw [h1]
  have h2 : ("Content-Length: ".data ++ (digits ++ ['\r', '\n'])).reverse
      = '\n' :: ('\r' :: (digits.reverse ++ "Content-Length: ".data.reverse)) := by
    simp
  rw [h2, List.dropWhile_cons, if_pos (by decide),
    List.dropWhile_cons, if_pos (by decide), hrev]
  rw [show e :: es ++ "Content-Length: ".data.reverse
      = e :: (es ++ "Content-Length: ".data.reverse) from rfl]
  rw [dropWhile_head_false isPySpace e _ he]
  rw [show e :: (es ++ "Content-Length: ".data.reverse)
      = (e :: es) ++ "Content-Length: ".data.reverse from rfl, ← hrev]
  simp

theorem stripChars_space_digits (digits : List Char) (d : Char) (ds : List Char)
    (hD : digits = d :: ds) (hd : isPySpace d = false)
    (e : Char) (es : List Char)
    (hrev : digits.reverse = e :: es) (he : isPySpace e = false) :
    stripChars (' ' :: digits) = digits := by
  unfold stripChars
  rw [List.dropWhile_cons, if_pos (by decide), hD,
    dropWhile_head_false isPySpace d ds hd, ← hD, hrev,
    dropWhile_head_false isPySpace e es he, ← hrev]
  simp

theorem process_one_frame_spec (stream h1 b1 hdr l2 b2 : List Char)
    (n : Nat) (m : Json)
    (hread : readLine stream = (h1, b1))
    (hstrip : stripChars h1 = hdr)
    (hne : ¬(hdr = []))
    (htk : hdr.take 15 = "Content-Length:".data)
    (hnum : parsePyInt (stripChars
        (((hdr.dropWhile fun c => c != ':').drop 1).takeWhile
          fun c => c != ':')) = some n)
    (hread2 : readLine b1 = (l2, b2))
    (hload : PyJson.loads (b2.take n) = some m) :
    process_one_frame stream = some (m, b2.drop n) := by
  show (if stripChars (readLine stream).1 = [] then none
    else if (stripChars (readLine stream).1).take 15
        ≠ "Content-Length:".data then none
    else
      match parsePyInt (stripChars
          ((((stripChars (readLine stream).1).dropWhile
            fun c => c != ':').drop 1).takeWhile fun c => c != ':')) with
      | none => none
      | some n2 =>
        match PyJson.loads ((readLine (readLine stream).2).2.take n2) with
        | none => none
        | some m2 => some (m2, (readLine (readLine stream).2).2.drop n2))
    = some (m, b2.drop n)
  rw [hread]
  show (if stripChars h1 = [] then none
    else if (stripChars h1).take 15 ≠ "Content-Length:".data then none
    else
      match parsePyInt (stripChars
          ((((stripChars h1).dropWhile fun c => c != ':').drop 1).takeWhile
            fun c => c != ':')) with
      | none => none
      | some n2 =>
        match PyJson.loads ((readLine b1).2.take n2) with
        | none => none
        | some m2 => some (m2, (readLine b1).2.drop n2)) = some (m, b2.drop n)
  rw [hstrip, if_neg hne, htk,
    if_neg (show ¬("Content-Length:".data ≠ "Content-Length:".data) from
      fun hh => hh rfl),
    hnum, hread2]
  show (match PyJson.loads (b2.take n) with
    | none => none
    | some m2 => some (m2, b2.drop n)) = some (m, b2.drop n)
  rw [hload]

theorem process_one_frame_roundtrip (m : Json) (rest : List Char) :
    process_one_frame (send_message_frame m ++ rest) = some (m, rest) := by
  have hDall : ∀ c ∈ natToChars (utf8Length (dumps m)), isDigitChar c = true :=
    natToChars_all_digits _
  have hDne : natToChars (utf8Length (dumps m)) ≠ [] := natToChars_ne_nil _
  obtain ⟨d, ds, hD⟩ : ∃ d ds, natToChars (utf8Length (dumps m)) = d :: ds := by
    cases hC : natToChars (utf8Length (dumps m)) with
    | nil => exact absurd hC hDne
    | cons d ds => exact ⟨d, ds, rfl⟩
  obtain ⟨e, es, hrev⟩ : ∃ e es,
      (natToChars (utf8Length (dumps m))).reverse = e :: es := by
    cases hC : (natToChars (utf8Length (dumps m))).reverse with
    | nil =>
      rw [List.reverse_eq_nil_iff] at hC
      exact absurd hC hDne
    | cons e es => exact ⟨e, es, rfl⟩
  have he : isPySpace e = false := by
    apply digit_not_pyspace
    apply hDall
    have hm : e ∈ (natToChars (utf8Length (dumps m))).reverse := by
      rw [hrev]; simp
    simpa using hm
  have hd : isPySpace d = false :=
    digit_not_pyspace d (hDall d (by rw [hD]; simp))
  have hno1 : ∀ c ∈ "Content-Length: ".data
      ++ (natToChars (utf8Length (dumps m)) ++ ['\r']), c ≠ '\n' := by
    have hCL : ∀ x ∈ "Content-Length: ".data, x ≠ '\n' := by decide
    intro c hc
    rcases List.mem_append.mp hc with h | h
    · exact hCL c h
    · rcases List.mem_append.mp h with h2 | h2
      · exact digit_ne_newline c (hDall c h2)
      · simp at h2; subst h2; decide
  have hsplit1 : send_message_frame m ++ rest
      = ("Content-Length: ".data ++ (natToChars (utf8Length (dumps m)) ++ ['\r']))
        ++ '\n' :: ('\r' :: ('\n' :: (dumps m ++ rest))) := by
    show ("Content-Length: ".data ++ natToChars (utf8Length (dumps m))
        ++ ['\r', '\n', '\r', '\n'] ++ dumps m) ++ rest = _
    simp [List.append_assoc]
  have hp1 : readLine (send_message_frame m ++ rest)
      = (("Content-Length: ".data ++ (natToChars (utf8Length (dumps m)) ++ ['\r']))
          ++ ['\n'], '\r' :: ('\n' :: (dumps m ++ rest))) := by
    rw [hsplit1]
    exact readLine_append _ _ hno1
  have hp1a : (readLine (send_message_frame m ++ rest)).1
      = ("Content-Length: ".data ++ (natToChars (utf8Length (dumps m)) ++ ['\r']))
        ++ ['\n'] := by rw [hp1]
  have hp1b : (readLine (send_message_frame m ++ rest)).2
      = '\r' :: ('\n' :: (dumps m ++ rest)) := by rw [hp1]
  have hA1 : ("Content-Length: ".data
        ++ (natToChars (utf8Length (dumps m)) ++ ['\r'])) ++ ['\n']
      = "Content-Length: ".data
        ++ (natToChars (utf8Length (dumps m)) ++ ['\r', '\n']) := by
    simp
  have hheader : stripChars ((("Content-Length: ".data
        ++ (natToChars (utf8Length (dumps m)) ++ ['\r'])) ++ ['\n']))
      = "Content-Length: ".data ++ natToChars (utf8Length (dumps m)) := by
    rw [hA1]
    exact stripChars_header _ e es hrev he
  have hne_nil : ¬("Content-Length: ".data
      ++ natToChars (utf8Length (dumps m)) = []) := by
    simp
  have htake : ("Content-Length: ".data
        ++ natToChars (utf8Length (dumps m))).take 15
      = "Content-Length:".data := by
    have h15 : ("Content-Length: ".data).take 15 = "Content-Length:".data := rfl
    have hz : 15 - ("Content-Length: ".data).length = 0 := rfl
    rw [List.take_append_eq_append_take, h15, hz]
    simp
  have hcolon : (("Content-Length: ".data
        ++ natToChars (utf8Length (dumps m))).dropWhile
        (fun c => c != ':')).drop 1
      = ' ' :: natToChars (utf8Length (dumps m)) := by
    rw [show "Content-Length: ".data ++ natToChars (utf8Length (dumps m))
        = "Content-Length".data
          ++ (':' :: (' ' :: natToChars (utf8Length (dumps m)))) from rfl]
    rw [dropWhile_all_true _ "Content-Length".data _ (by decide)]
    rw [dropWhile_head_false _ ':' _ (by decide)]
    rfl
  have hnum : stripChars ((' ' :: natToChars (utf8Length (dumps m))).takeWhile
        (fun c => c != ':'))
      = natToChars (utf8Length (dumps m)) := by
    have hall : ∀ c ∈ ' ' :: natToChars (utf8Length (dumps m)),
        (fun c => c != ':') c = true := by
      intro c hc
      rcases List.mem_cons.mp hc with h | h
      · subst h; decide
      · exact digit_ne_colon_bne c (hDall c h)
    rw [takeWhile_all_true _ _ hall]
    exact stripChars_space_digits _ d ds hD hd e es hrev he
  have hball : (natToChars (utf8Length (dumps m))).all isDigitChar = true := by
    rw [List.all_eq_true]
    intro x hx
    exact hDall x hx
  have hpy : parsePyInt (natToChars (utf8Length (dumps m)))
      = some (utf8Length (dumps m)) := by
    unfold parsePyInt
    rw [if_pos ⟨hDne, hball⟩, digitsVal_natToChars]
  have hp2 : readLine ('\r' :: ('\n' :: (dumps m ++ rest)))
      = (['\r', '\n'], dumps m ++ rest) := by
    have h := readLine_append ['\r'] (dumps m ++ rest) (by decide)
    simpa using h
  have hp2a : (readLine ('\r' :: ('\n' :: (dumps m ++ rest)))).2
      = dumps m ++ rest := by rw [hp2]
  have hlen2 : utf8Length (dumps m) = (dumps m).length :=
    utf8Length_ascii _ (dumps_ascii m)
  have htakeN : (dumps m ++ rest).take (utf8Length (dumps m)) = dumps m := by
    rw [hlen2]
    exact List.take_left _ _
  have hdropN : (dumps m ++ rest).drop (utf8Length (dumps m)) = rest := by
    rw [hlen2]
    exact List.drop_left _ _
  have hnum2 : parsePyInt (stripChars
      (((("Content-Length: ".data
          ++ natToChars (utf8Length (dumps m))).dropWhile
        fun c => c != ':').drop 1).takeWhile fun c => c != ':'))
      = some (utf8Length (dumps m)) := by
    rw [hcolon, hnum, hpy]
  have hload2 : PyJson.loads ((dumps m ++ rest).take (utf8Length (dumps m)))
      = some m := by
    rw [htakeN]
    exact loads_dumps m
  have h := process_one_frame_spec (send_message_frame m ++ rest)
    (("Content-Length: ".data
      ++ (natToChars (utf8Length (dumps m)) ++ ['\r'])) ++ ['\n'])
    ('\r' :: ('\n' :: (dumps m ++ rest)))
    ("Content-Length: ".data ++ natToChars (utf8Length (dumps m)))
    ['\r', '\n'] (dumps m ++ rest) (utf8Length (dumps m)) m
    hp1 hheader hne_nil htake hnum2 hp2 hload2
  rw [hdropN] at h
  exact h

/-- Claim C7. For every message the CPP server sends, the emitted stream is
exactly the ASCII header Content-Length: followed by the byte length of the
compact JSON body, a blank line, and the body; the stream is pure ASCII (so
characters coincide with UTF-8 bytes); and feeding the stream to the frame
reading loop of the server parses back exactly the original message with
the remainder of the stream untouched (round-trip). -/
theorem C7_frame_roundtrip (m : Json) (rest : List Char) :
    send_message_frame m
      = "Content-Length: ".data ++ natToChars (utf8Length (dumps m))
        ++ ['\r', '\n', '\r', '\n'] ++ dumps m
    ∧ (∀ c ∈ send_message_frame m, c.toNat < 128)
    ∧ process_one_frame (send_message_frame m ++ rest) = some (m, rest) := by
  refine ⟨rfl, ?_, process_one_frame_roundtrip m rest⟩
  intro c hc
  have hc2 : c ∈ "Content-Length: ".data
      ++ natToChars (utf8Length (dumps m))
      ++ ['\r', '\n', '\r', '\n'] ++ dumps m := hc
  rcases List.mem_append.mp hc2 with h | h
  · rcases List.mem_append.mp h with h2 | h2
    · rcases List.mem_append.mp h2 with h3 | h3
      · have hall : ∀ x ∈ "Content-Length: ".data, x.toNat < 128 := by decide
        exact hall c h3
      · exact natToChars_ascii _ c h3
    · simp at h2
      rcases h2 with h2 | h2 | h2 | h2 <;> (subst h2; decide)
  · exact dumps_ascii m c h
